import Mathlib

/-!
Verification of the mu_json token parser (src/src/mu_json.c, src/src/mu_str.h).

The C code is shallowly embedded: the input JSON text is a `List Nat` of byte
values, a `mu_str_t` slice is an (offset, length) view into that input, the
caller-supplied token store is a `List mu_json_token_t`, and a C token pointer
is an `Option Nat` index into the store (`none` models `NULL`).  All machine
integers here stay well inside `int` range for the inputs considered
(`depth` is stored in an `int16_t` in C; nesting beyond 32767, which would
wrap, is outside this model).  Places where the C code would read out of
bounds (undefined behavior) are modelled by a harmless default and marked
with a comment.
-/

namespace MuJson

/-! ### Character classes (mu_json.c, ch_class_t) -/

def C_SPACE : Nat := 0
def C_WHITE : Nat := 1
def C_LCURB : Nat := 2
def C_RCURB : Nat := 3
def C_LSQRB : Nat := 4
def C_RSQRB : Nat := 5
def C_COLON : Nat := 6
def C_COMMA : Nat := 7
def C_QUOTE : Nat := 8
def C_BACKS : Nat := 9
def C_SLASH : Nat := 10
def C_PLUS : Nat := 11
def C_MINUS : Nat := 12
def C_POINT : Nat := 13
def C_ZERO : Nat := 14
def C_DIGIT : Nat := 15
def C_LOW_A : Nat := 16
def C_LOW_B : Nat := 17
def C_LOW_C : Nat := 18
def C_LOW_D : Nat := 19
def C_LOW_E : Nat := 20
def C_LOW_F : Nat := 21
def C_LOW_L : Nat := 22
def C_LOW_N : Nat := 23
def C_LOW_R : Nat := 24
def C_LOW_S : Nat := 25
def C_LOW_T : Nat := 26
def C_LOW_U : Nat := 27
def C_ABCDF : Nat := 28
def C_E : Nat := 29
def C_ETC : Nat := 30
def NR_CLASSES : Nat := 31

/-- The C error code `__`, defined as `(uint8_t)-1`, i.e. the value 255
(not a negative number: the `char_class < 0` test in `parse` can never fire). -/
def ERR : Nat := 255

/-- ascii_classes: map of the 128 ASCII codes to character classes,
transcribed cell for cell from mu_json.c. -/
def ascii_classes : List Nat := [
  ERR,     ERR,     ERR,     ERR,     ERR,     ERR,     ERR,     ERR,
  ERR,     C_WHITE, C_WHITE, ERR,     ERR,     C_WHITE, ERR,     ERR,
  ERR,     ERR,     ERR,     ERR,     ERR,     ERR,     ERR,     ERR,
  ERR,     ERR,     ERR,     ERR,     ERR,     ERR,     ERR,     ERR,

  C_SPACE, C_ETC,   C_QUOTE, C_ETC,   C_ETC,   C_ETC,   C_ETC,   C_ETC,
  C_ETC,   C_ETC,   C_ETC,   C_PLUS,  C_COMMA, C_MINUS, C_POINT, C_SLASH,
  C_ZERO,  C_DIGIT, C_DIGIT, C_DIGIT, C_DIGIT, C_DIGIT, C_DIGIT, C_DIGIT,
  C_DIGIT, C_DIGIT, C_COLON, C_ETC,   C_ETC,   C_ETC,   C_ETC,   C_ETC,

  C_ETC,   C_ABCDF, C_ABCDF, C_ABCDF, C_ABCDF, C_E,     C_ABCDF, C_ETC,
  C_ETC,   C_ETC,   C_ETC,   C_ETC,   C_ETC,   C_ETC,   C_ETC,   C_ETC,
  C_ETC,   C_ETC,   C_ETC,   C_ETC,   C_ETC,   C_ETC,   C_ETC,   C_ETC,
  C_ETC,   C_ETC,   C_ETC,   C_LSQRB, C_BACKS, C_RSQRB, C_ETC,   C_ETC,

  C_ETC,   C_LOW_A, C_LOW_B, C_LOW_C, C_LOW_D, C_LOW_E, C_LOW_F, C_ETC,
  C_ETC,   C_ETC,   C_ETC,   C_ETC,   C_LOW_L, C_ETC,   C_LOW_N, C_ETC,
  C_ETC,   C_ETC,   C_LOW_R, C_LOW_S, C_LOW_T, C_LOW_U, C_ETC,   C_ETC,
  C_ETC,   C_ETC,   C_ETC,   C_LCURB, C_ETC,   C_RCURB, C_ETC,   C_ETC]

/-- classify_char: bytes at and above 128 map to C_ETC, the rest through
`ascii_classes` (the `getD` default is unreachable for `ch < 128`). -/
def classify_char (ch : Nat) : Nat :=
  if ch ≥ 128 then C_ETC else ascii_classes.getD ch ERR

/-! ### Parser states and actions (mu_json.c, DEFINE_STATES) -/

def GO : Nat := 0
def OK : Nat := 1
def OB : Nat := 2
def KE : Nat := 3
def CO : Nat := 4
def VA : Nat := 5
def AR : Nat := 6
def ST : Nat := 7
def ES : Nat := 8
def U1 : Nat := 9
def U2 : Nat := 10
def U3 : Nat := 11
def U4 : Nat := 12
def MI : Nat := 13
def ZE : Nat := 14
def IN : Nat := 15
def FR : Nat := 16
def FS : Nat := 17
def E1 : Nat := 18
def E2 : Nat := 19
def E3 : Nat := 20
def T1 : Nat := 21
def T2 : Nat := 22
def T3 : Nat := 23
def F1 : Nat := 24
def F2 : Nat := 25
def F3 : Nat := 26
def F4 : Nat := 27
def N1 : Nat := 28
def N2 : Nat := 29
def N3 : Nat := 30
def NR_STATES : Nat := 31
def Ba : Nat := 32
def Bd : Nat := 33
def Bf : Nat := 34
def Bm : Nat := 35
def Bn : Nat := 36
def Bo : Nat := 37
def Bs : Nat := 38
def Bt : Nat := 39
def Bz : Nat := 40
def Fa : Nat := 41
def Fo : Nat := 42
def Pl : Nat := 43
def Pm : Nat := 44
def Ps : Nat := 45
def Pq : Nat := 46

/-- state_transition_table: the flat `NR_STATES * NR_CLASSES` array from
mu_json.c, transcribed cell for cell (rows GO..N3, 31 columns each). -/
def state_transition_table : List Nat := [
/-GO-/ GO,GO,Bo,ERR,Ba,ERR,ERR,ERR,Bs,ERR,ERR,ERR,Bm,ERR,Bz,Bd,ERR,ERR,ERR,ERR,ERR,Bf,ERR,Bn,ERR,ERR,Bt,ERR,ERR,ERR,ERR,
/-OK-/ Ps,Ps,ERR,Fo,ERR,Fa,ERR,Pm,ERR,ERR,ERR,ERR,ERR,ERR,ERR,ERR,ERR,ERR,ERR,ERR,ERR,ERR,ERR,ERR,ERR,ERR,ERR,ERR,ERR,ERR,ERR,
/-OB-/ OB,OB,ERR,Fo,ERR,ERR,ERR,ERR,Bs,ERR,ERR,ERR,ERR,ERR,ERR,ERR,ERR,ERR,ERR,ERR,ERR,ERR,ERR,ERR,ERR,ERR,ERR,ERR,ERR,ERR,ERR,
/-KE-/ KE,KE,ERR,ERR,ERR,ERR,ERR,ERR,Bs,ERR,ERR,ERR,ERR,ERR,ERR,ERR,ERR,ERR,ERR,ERR,ERR,ERR,ERR,ERR,ERR,ERR,ERR,ERR,ERR,ERR,ERR,
/-CO-/ Ps,Ps,ERR,ERR,ERR,ERR,Pl,ERR,ERR,ERR,ERR,ERR,ERR,ERR,ERR,ERR,ERR,ERR,ERR,ERR,ERR,ERR,ERR,ERR,ERR,ERR,ERR,ERR,ERR,ERR,ERR,
/-VA-/ VA,VA,Bo,ERR,Ba,ERR,ERR,ERR,Bs,ERR,ERR,ERR,Bm,ERR,Bz,Bd,ERR,ERR,ERR,ERR,ERR,Bf,ERR,Bn,ERR,ERR,Bt,ERR,ERR,ERR,ERR,
/-AR-/ AR,AR,Bo,ERR,Ba,Fa,ERR,ERR,Bs,ERR,ERR,ERR,Bm,ERR,Bz,Bd,ERR,ERR,ERR,ERR,ERR,Bf,ERR,Bn,ERR,ERR,Bt,ERR,ERR,ERR,ERR,
/-ST-/ ST,ERR,ST,ST,ST,ST,ST,ST,Pq,ES,ST,ST,ST,ST,ST,ST,ST,ST,ST,ST,ST,ST,ST,ST,ST,ST,ST,ST,ST,ST,ST,
/-ES-/ ERR,ERR,ERR,ERR,ERR,ERR,ERR,ERR,Bs,ST,ST,ERR,ERR,ERR,ERR,ERR,ERR,ST,ERR,ERR,ERR,ST,ERR,ST,ST,ERR,ST,U1,ERR,ERR,ERR,
/-U1-/ ERR,ERR,ERR,ERR,ERR,ERR,ERR,ERR,ERR,ERR,ERR,ERR,ERR,ERR,U2,U2,U2,U2,U2,U2,U2,U2,ERR,ERR,ERR,ERR,ERR,ERR,U2,U2,ERR,
/-U2-/ ERR,ERR,ERR,ERR,ERR,ERR,ERR,ERR,ERR,ERR,ERR,ERR,ERR,ERR,U3,U3,U3,U3,U3,U3,U3,U3,ERR,ERR,ERR,ERR,ERR,ERR,U3,U3,ERR,
/-U3-/ ERR,ERR,ERR,ERR,ERR,ERR,ERR,ERR,ERR,ERR,ERR,ERR,ERR,ERR,U4,U4,U4,U4,U4,U4,U4,U4,ERR,ERR,ERR,ERR,ERR,ERR,U4,U4,ERR,
/-U4-/ ERR,ERR,ERR,ERR,ERR,ERR,ERR,ERR,ERR,ERR,ERR,ERR,ERR,ERR,ST,ST,ST,ST,ST,ST,ST,ST,ERR,ERR,ERR,ERR,ERR,ERR,ST,ST,ERR,
/-MI-/ ERR,ERR,ERR,ERR,ERR,ERR,ERR,ERR,ERR,ERR,ERR,ERR,ERR,ERR,ZE,IN,ERR,ERR,ERR,ERR,ERR,ERR,ERR,ERR,ERR,ERR,ERR,ERR,ERR,ERR,ERR,
/-ZE-/ OK,OK,ERR,Fo,ERR,Fa,ERR,Pm,ERR,ERR,ERR,ERR,ERR,FR,ERR,ERR,ERR,ERR,ERR,ERR,E1,ERR,ERR,ERR,ERR,ERR,ERR,ERR,ERR,E1,ERR,
/-IN-/ Ps,Ps,ERR,Fo,ERR,Fa,ERR,Pm,ERR,ERR,ERR,ERR,ERR,FR,IN,IN,ERR,ERR,ERR,ERR,E1,ERR,ERR,ERR,ERR,ERR,ERR,ERR,ERR,E1,ERR,
/-FR-/ ERR,ERR,ERR,ERR,ERR,ERR,ERR,ERR,ERR,ERR,ERR,ERR,ERR,ERR,FS,FS,ERR,ERR,ERR,ERR,ERR,ERR,ERR,ERR,ERR,ERR,ERR,ERR,ERR,ERR,ERR,
/-FS-/ OK,OK,ERR,Fo,ERR,Fa,ERR,Pm,ERR,ERR,ERR,ERR,ERR,ERR,FS,FS,ERR,ERR,ERR,ERR,E1,ERR,ERR,ERR,ERR,ERR,ERR,ERR,ERR,E1,ERR,
/-E1-/ ERR,ERR,ERR,ERR,ERR,ERR,ERR,ERR,ERR,ERR,ERR,E2,E2,ERR,E3,E3,ERR,ERR,ERR,ERR,ERR,ERR,ERR,ERR,ERR,ERR,ERR,ERR,ERR,ERR,ERR,
/-E2-/ ERR,ERR,ERR,ERR,ERR,ERR,ERR,ERR,ERR,ERR,ERR,ERR,ERR,ERR,E3,E3,ERR,ERR,ERR,ERR,ERR,ERR,ERR,ERR,ERR,ERR,ERR,ERR,ERR,ERR,ERR,
/-E3-/ OK,OK,ERR,Fo,ERR,Fa,ERR,Pm,ERR,ERR,ERR,ERR,ERR,ERR,E3,E3,ERR,ERR,ERR,ERR,ERR,ERR,ERR,ERR,ERR,ERR,ERR,ERR,ERR,ERR,ERR,
/-T1-/ ERR,ERR,ERR,ERR,ERR,ERR,ERR,ERR,ERR,ERR,ERR,ERR,ERR,ERR,ERR,ERR,ERR,ERR,ERR,ERR,ERR,ERR,ERR,ERR,T2,ERR,ERR,ERR,ERR,ERR,ERR,
/-T2-/ ERR,ERR,ERR,ERR,ERR,ERR,ERR,ERR,ERR,ERR,ERR,ERR,ERR,ERR,ERR,ERR,ERR,ERR,ERR,ERR,ERR,ERR,ERR,ERR,ERR,ERR,ERR,T3,ERR,ERR,ERR,
/-T3-/ ERR,ERR,ERR,ERR,ERR,ERR,ERR,ERR,ERR,ERR,ERR,ERR,ERR,ERR,ERR,ERR,ERR,ERR,ERR,ERR,OK,ERR,ERR,ERR,ERR,ERR,ERR,ERR,ERR,ERR,ERR,
/-F1-/ ERR,ERR,ERR,ERR,ERR,ERR,ERR,ERR,ERR,ERR,ERR,ERR,ERR,ERR,ERR,ERR,F2,ERR,ERR,ERR,ERR,ERR,ERR,ERR,ERR,ERR,ERR,ERR,ERR,ERR,ERR,
/-F2-/ ERR,ERR,ERR,ERR,ERR,ERR,ERR,ERR,ERR,ERR,ERR,ERR,ERR,ERR,ERR,ERR,ERR,ERR,ERR,ERR,ERR,ERR,F3,ERR,ERR,ERR,ERR,ERR,ERR,ERR,ERR,
/-F3-/ ERR,ERR,ERR,ERR,ERR,ERR,ERR,ERR,ERR,ERR,ERR,ERR,ERR,ERR,ERR,ERR,ERR,ERR,ERR,ERR,ERR,ERR,ERR,ERR,ERR,F4,ERR,ERR,ERR,ERR,ERR,
/-F4-/ ERR,ERR,ERR,ERR,ERR,ERR,ERR,ERR,ERR,ERR,ERR,ERR,ERR,ERR,ERR,ERR,ERR,ERR,ERR,ERR,OK,ERR,ERR,ERR,ERR,ERR,ERR,ERR,ERR,ERR,ERR,
/-N1-/ ERR,ERR,ERR,ERR,ERR,ERR,ERR,ERR,ERR,ERR,ERR,ERR,ERR,ERR,ERR,ERR,ERR,ERR,ERR,ERR,ERR,ERR,ERR,ERR,ERR,ERR,ERR,N2,ERR,ERR,ERR,
/-N2-/ ERR,ERR,ERR,ERR,ERR,ERR,ERR,ERR,ERR,ERR,ERR,ERR,ERR,ERR,ERR,ERR,ERR,ERR,ERR,ERR,ERR,ERR,N3,ERR,ERR,ERR,ERR,ERR,ERR,ERR,ERR,
/-N3-/ ERR,ERR,ERR,ERR,ERR,ERR,ERR,ERR,ERR,ERR,ERR,ERR,ERR,ERR,ERR,ERR,ERR,ERR,ERR,ERR,ERR,ERR,OK,ERR,ERR,ERR,ERR,ERR,ERR,ERR,ERR]

/-- lookup_state: `state_transition_table[state * NR_CLASSES + char_class]`.
For an error class (255) the C index lands in a later row of the flat array
(still in bounds for states up to E3, out of bounds past that); the flat
`getD` reproduces the in-bounds reads exactly and maps the out-of-bounds
reads (C undefined behavior) to the error code. -/
def lookup_state (state char_class : Nat) : Nat :=
  state_transition_table.getD (state * NR_CLASSES + char_class) ERR

/-! ### mu_str slices (mu_str.h / mu_str.c) -/

def MU_STR_END : Nat := 2147483647

/-- A mu_str_t, as used by mu_json: a view into the parse input, recorded as
the offset of its first byte within that input plus its length (the C struct
holds a pointer and a length; the offset determines the pointer). -/
structure mu_str_t where
  off : Nat
  length : Nat
deriving Repr, DecidableEq

/-- mu_str_slice with non-negative bounds (every call in mu_json.c passes
non-negative `start`/`end`, so the negative-index branches are dropped). -/
def mu_str_slice (src : mu_str_t) (start e : Nat) : mu_str_t :=
  let s := if start > src.length ∨ start = MU_STR_END then src.length else start
  let e2 := if e ≥ src.length ∨ e = MU_STR_END then src.length else e
  let e3 := if e2 < s then s else e2
  { off := src.off + s, length := e3 - s }

/-! ### Tokens (mu_json.h) -/

def MU_JSON_TOKEN_TYPE_UNKNOWN : Nat := 0
def MU_JSON_TOKEN_TYPE_ARRAY : Nat := 1
def MU_JSON_TOKEN_TYPE_OBJECT : Nat := 2
def MU_JSON_TOKEN_TYPE_STRING : Nat := 3
def MU_JSON_TOKEN_TYPE_NUMBER : Nat := 4
def MU_JSON_TOKEN_TYPE_INTEGER : Nat := 5
def MU_JSON_TOKEN_TYPE_TRUE : Nat := 6
def MU_JSON_TOKEN_TYPE_FALSE : Nat := 7
def MU_JSON_TOKEN_TYPE_NULL : Nat := 8

/-- mu_json_token_t.  The C `flags` byte (IS_FIRST = 1, IS_LAST = 2,
IS_SEALED = 4) is represented by three booleans. -/
structure mu_json_token_t where
  json : mu_str_t
  type : Nat
  is_first : Bool
  is_last : Bool
  is_sealed : Bool
  depth : Int
deriving Repr, DecidableEq

/-! ### Token accessors and navigation (mu_json.c public code)

A C token pointer is modelled as `Option Nat`: `some i` points at entry `i`
of the token store `ts`, `none` is `NULL`. -/

/-- Dereference a token pointer. -/
def tok? (ts : List mu_json_token_t) (oi : Option Nat) : Option mu_json_token_t :=
  oi.bind fun i => ts[i]?

def mu_json_token_slice (ts : List mu_json_token_t) (oi : Option Nat) :
    Option mu_str_t :=
  match tok? ts oi with
  | none => none
  | some t => some t.json

def mu_json_token_type (ts : List mu_json_token_t) (oi : Option Nat) : Nat :=
  match tok? ts oi with
  | none => MU_JSON_TOKEN_TYPE_UNKNOWN
  | some t => t.type

/-- mu_json_token_depth.  A NULL token yields -1; a dangling index (C would
read out of bounds) is also mapped to -1. -/
def mu_json_token_depth (ts : List mu_json_token_t) (oi : Option Nat) : Int :=
  match tok? ts oi with
  | none => -1
  | some t => t.depth

def mu_json_token_is_first (ts : List mu_json_token_t) (oi : Option Nat) : Bool :=
  match tok? ts oi with
  | none => false
  | some t => t.is_first

def mu_json_token_is_last (ts : List mu_json_token_t) (oi : Option Nat) : Bool :=
  match tok? ts oi with
  | none => false
  | some t => t.is_last

/-- mu_json_token_prev: NULL on a NULL or IS_FIRST token, else index - 1.
Stepping back from index 0 without IS_FIRST would leave the array in C
(undefined behavior); it is modelled as absent. -/
def mu_json_token_prev (ts : List mu_json_token_t) (oi : Option Nat) :
    Option Nat :=
  match oi with
  | none => none
  | some i =>
    match ts[i]? with
    | none => none
    | some t => if t.is_first then none else if i = 0 then none else some (i - 1)

/-- mu_json_token_next: NULL on a NULL or IS_LAST token, else index + 1
(a resulting out-of-range index dereferences to nothing downstream). -/
def mu_json_token_next (ts : List mu_json_token_t) (oi : Option Nat) :
    Option Nat :=
  match oi with
  | none => none
  | some i =>
    match ts[i]? with
    | none => none
    | some t => if t.is_last then none else some (i + 1)

/-- Loop of mu_json_token_root: walk to lower indices until IS_FIRST.  The
fuel argument is one more than the start index, enough for the whole walk. -/
def root_walk (ts : List mu_json_token_t) : Nat → Option Nat → Option Nat
  | 0, _ => none
  | _ + 1, none => none
  | fuel + 1, some i =>
    if mu_json_token_is_first ts (some i) then some i
    else root_walk ts fuel (mu_json_token_prev ts (some i))

def mu_json_token_root (ts : List mu_json_token_t) (oi : Option Nat) :
    Option Nat :=
  match oi with
  | none => none
  | some i => root_walk ts (i + 1) (some i)

/-- Loop of mu_json_token_parent: starting from the candidate `prev = token - 1`,
keep stepping back while the candidate has depth ≥ the token's depth. -/
def parent_walk (ts : List mu_json_token_t) (d : Int) :
    Nat → Option Nat → Option Nat
  | 0, _ => none
  | _ + 1, none => none
  | fuel + 1, some i =>
    if mu_json_token_depth ts (some i) ≥ d then
      parent_walk ts d fuel (mu_json_token_prev ts (some i))
    else some i

def mu_json_token_parent (ts : List mu_json_token_t) (oi : Option Nat) :
    Option Nat :=
  match oi with
  | none => none
  | some i =>
    parent_walk ts (mu_json_token_depth ts (some i)) (i + 1)
      (mu_json_token_prev ts (some i))

def mu_json_token_child (ts : List mu_json_token_t) (oi : Option Nat) :
    Option Nat :=
  match oi with
  | none => none
  | some i =>
    let next := mu_json_token_next ts (some i)
    if mu_json_token_depth ts next > mu_json_token_depth ts (some i) then next
    else none

/-- Loop shared by mu_json_token_prev_sibling / next_sibling: stop on NULL or
on a token of smaller depth (absent), or on equal depth (found); keep walking
past deeper tokens via `step`. -/
def sib_walk (ts : List mu_json_token_t)
    (step : List mu_json_token_t → Option Nat → Option Nat) (d : Int) :
    Nat → Option Nat → Option Nat
  | 0, _ => none
  | _ + 1, none => none
  | fuel + 1, some i =>
    if mu_json_token_depth ts (some i) < d then none
    else if mu_json_token_depth ts (some i) = d then some i
    else sib_walk ts step d fuel (step ts (some i))

def mu_json_token_prev_sibling (ts : List mu_json_token_t) (oi : Option Nat) :
    Option Nat :=
  match oi with
  | none => none
  | some i =>
    sib_walk ts mu_json_token_prev (mu_json_token_depth ts (some i)) (i + 1)
      (mu_json_token_prev ts (some i))

def mu_json_token_next_sibling (ts : List mu_json_token_t) (oi : Option Nat) :
    Option Nat :=
  match oi with
  | none => none
  | some i =>
    sib_walk ts mu_json_token_next (mu_json_token_depth ts (some i))
      (ts.length + 1) (mu_json_token_next ts (some i))

/-! ### Parser internals (mu_json.c private code) -/

/-- is_container (reads the type through the token pointer; a NULL argument,
which C would dereference, simply yields false here). -/
def is_container (ts : List mu_json_token_t) (oi : Option Nat) : Bool :=
  mu_json_token_type ts oi = MU_JSON_TOKEN_TYPE_ARRAY ∨
  mu_json_token_type ts oi = MU_JSON_TOKEN_TYPE_OBJECT

def token_is_sealed (ts : List mu_json_token_t) (oi : Option Nat) : Bool :=
  match tok? ts oi with
  | none => false
  | some t => t.is_sealed

/-- parser_t.  The two read-only configuration fields of the C struct —
`json` (kept as its length `json_len`) and `max_tokens` — are passed to the
parser functions as explicit arguments; the structure keeps the mutable
state. -/
structure parser_t where
  tokens : List mu_json_token_t
  depth : Int
  char_pos : Nat
  state : Nat
  error : Int
deriving Repr, DecidableEq

/-- begin_token: allocate and initialize a token at the end of the store.
`json_len` is the length of the parse input, `max_tokens` the store size. -/
def begin_token (json_len max_tokens : Nat) (p : parser_t) (type : Nat) :
    Bool × parser_t :=
  if p.tokens.length ≥ max_tokens then (false, p)
  else
    let token : mu_json_token_t :=
      { json := mu_str_slice { off := 0, length := json_len } p.char_pos MU_STR_END
        type := type
        is_first := p.tokens.length + 1 = 1
        is_last := false
        is_sealed := false
        depth := p.depth }
    (true, { p with tokens := p.tokens ++ [token] })

/-- finish_token: trim the token's slice to end at char_pos (or one past it)
and seal it; a NULL or already-sealed token is left alone. -/
def finish_token (json_len : Nat) (p : parser_t) (oi : Option Nat)
    (incl_delim : Bool) : parser_t :=
  match oi with
  | none => p
  | some i =>
    match p.tokens[i]? with
    | none => p
    | some t =>
      if t.is_sealed then p
      else
        let start_index := json_len - t.json.length
        let end_index := if incl_delim then p.char_pos + 1 else p.char_pos
        let j := mu_str_slice { off := 0, length := json_len } start_index end_index
        { p with tokens := p.tokens.set i { t with json := j, is_sealed := true } }

/-- tos: pointer to the most recently allocated token. -/
def tos (p : parser_t) : Option Nat :=
  if p.tokens.length = 0 then none else some (p.tokens.length - 1)

def std_alloc (json_len max_tokens : Nat) (p : parser_t) (type s : Nat) :
    parser_t :=
  match begin_token json_len max_tokens p type with
  | (false, q) => { q with error := -2 }
  | (true, q) => { q with state := s }

/-- child_count loop: 1-based position of `token` among the children of the
container, 0 if the walk runs off the sibling chain. -/
def child_count_loop (ts : List mu_json_token_t) (token : Option Nat) :
    Nat → Option Nat → Nat → Nat
  | 0, _, _ => 0
  | fuel + 1, child, count =>
    if child = token then count
    else
      match mu_json_token_next_sibling ts child with
      | none => 0
      | some n => child_count_loop ts token fuel (some n) (count + 1)

def child_count (ts : List mu_json_token_t) (container token : Option Nat) :
    Nat :=
  if container = token then 0
  else child_count_loop ts token (ts.length + 2)
    (mu_json_token_child ts container) 1

/-- select_state: pick the next state from the position of `token` relative
to its enclosing container. -/
def select_state (ts : List mu_json_token_t) (token : Option Nat)
    (not_in_container in_array in_object_key in_object_value : Nat) : Nat :=
  let container := mu_json_token_parent ts token
  match token with
  | none => ERR
  | some _ =>
    match container with
    | none => not_in_container
    | some _ =>
      if mu_json_token_type ts container = MU_JSON_TOKEN_TYPE_ARRAY then in_array
      else if child_count ts container token % 2 = 0 then in_object_key
      else in_object_value

/-- Case Ba / Bo of the dispatch: allocate a container, then `depth += 1`
(the increment happens whether or not the allocation succeeded, as in C). -/
def do_begin_container (json_len max_tokens : Nat) (p : parser_t) (ty s : Nat) :
    parser_t :=
  let q := std_alloc json_len max_tokens p ty s
  { q with depth := q.depth + 1 }

/-- Shared body of cases Fa and Fo: close the top of stack and/or its parent
container, then `depth -= 1` and go to state OK.  `cty` is the container
type the delimiter would match (ARRAY for `]`, OBJECT for a closing brace). -/
def do_finish_container (json_len : Nat) (p : parser_t) (cty : Nat) :
    parser_t :=
  let t := tos p
  let q :=
    if mu_json_token_type p.tokens t ≠ cty then
      let q1 := finish_token json_len p t false
      finish_token json_len q1 (mu_json_token_parent q1.tokens t) true
    else if token_is_sealed p.tokens t then
      finish_token json_len p (mu_json_token_parent p.tokens t) true
    else finish_token json_len p t true
  { q with depth := q.depth - 1, state := OK }

/-- Case Pl: process colon. -/
def do_Pl (json_len : Nat) (p : parser_t) : parser_t :=
  let t := tos p
  let q := finish_token json_len p t false
  { q with state := select_state q.tokens t ERR ERR ERR VA }

/-- Case Pm: process comma. -/
def do_Pm (json_len : Nat) (p : parser_t) : parser_t :=
  let t := tos p
  let q := finish_token json_len p t false
  { q with state := select_state q.tokens t ERR VA KE ERR }

/-- Case Ps: process trailing space. -/
def do_Ps (json_len : Nat) (p : parser_t) : parser_t :=
  let t := tos p
  let q := if ¬ is_container p.tokens t then finish_token json_len p t false else p
  { q with state := select_state q.tokens t OK OK OK p.state }

/-- Case Pq: process closing quote. -/
def do_Pq (json_len : Nat) (p : parser_t) : parser_t :=
  let t := tos p
  let q := finish_token json_len p t true
  { q with state := select_state q.tokens t OK OK OK CO }

/-- One iteration of the parse loop body for a character of class `cls`
(lines 648..806 of mu_json.c), without the final `char_pos += 1`. -/
def parse_step (json_len max_tokens : Nat) (p : parser_t) (cls : Nat) :
    parser_t :=
  let next := lookup_state p.state cls
  if next < NR_STATES then { p with state := next }
  else if next = Ba then
    do_begin_container json_len max_tokens p MU_JSON_TOKEN_TYPE_ARRAY AR
  else if next = Bd then
    std_alloc json_len max_tokens p MU_JSON_TOKEN_TYPE_NUMBER IN
  else if next = Bf then
    std_alloc json_len max_tokens p MU_JSON_TOKEN_TYPE_FALSE F1
  else if next = Bm then
    std_alloc json_len max_tokens p MU_JSON_TOKEN_TYPE_NUMBER MI
  else if next = Bn then
    std_alloc json_len max_tokens p MU_JSON_TOKEN_TYPE_NULL N1
  else if next = Bo then
    do_begin_container json_len max_tokens p MU_JSON_TOKEN_TYPE_OBJECT OB
  else if next = Bs then
    std_alloc json_len max_tokens p MU_JSON_TOKEN_TYPE_STRING ST
  else if next = Bt then
    std_alloc json_len max_tokens p MU_JSON_TOKEN_TYPE_TRUE T1
  else if next = Bz then
    std_alloc json_len max_tokens p MU_JSON_TOKEN_TYPE_NUMBER ZE
  else if next = Fa then do_finish_container json_len p MU_JSON_TOKEN_TYPE_ARRAY
  else if next = Fo then do_finish_container json_len p MU_JSON_TOKEN_TYPE_OBJECT
  else if next = Pl then do_Pl json_len p
  else if next = Pm then do_Pm json_len p
  else if next = Ps then do_Ps json_len p
  else if next = Pq then do_Pq json_len p
  else { p with error := -1 }

/-- The parse loop: process the byte at char_pos (end of input behaves like a
space and ends the loop), advancing char_pos each iteration.  The fuel
`input.length + 1` in `parse` covers every iteration the C `while` makes. -/
def parse_loop (input : List Nat) (max_tokens : Nat) :
    Nat → parser_t → parser_t
  | 0, p => p
  | fuel + 1, p =>
    if p.error ≠ 0 then p
    else
      match input[p.char_pos]? with
      | none =>
        let q := parse_step input.length max_tokens p C_SPACE
        { q with char_pos := q.char_pos + 1 }
      | some ch =>
        let q := parse_step input.length max_tokens p (classify_char ch)
        parse_loop input max_tokens fuel { q with char_pos := q.char_pos + 1 }

/-- Initial parser state (lines 613..621 of mu_json.c). -/
def parse_init : parser_t :=
  { tokens := [], depth := 0, char_pos := 0, state := GO, error := 0 }

/-- The endgame (lines 815..836): pick the return value, and on success mark
the last token and re-seal the root. -/
def parse_end (json_len : Nat) (p : parser_t) : Int × List mu_json_token_t :=
  if p.error ≠ 0 then (p.error, p.tokens)
  else if p.depth ≠ 0 then (-3, p.tokens)
  else if p.state ≠ OK then (-1, p.tokens)
  else
    match tos p with
    | none => ((p.tokens.length : Int), p.tokens)
    | some last =>
      let p1 :=
        match p.tokens[last]? with
        | none => p
        | some t => { p with tokens := p.tokens.set last { t with is_last := true } }
      let p2 := finish_token json_len p1 (mu_json_token_root p1.tokens (tos p1)) false
      ((p2.tokens.length : Int), p2.tokens)

/-- parse: returns the C return value (token count, or a negative error code)
together with the token store contents. -/
def parse (max_tokens : Nat) (input : List Nat) : Int × List mu_json_token_t :=
  parse_end input.length
    (parse_loop input max_tokens (input.length + 1) parse_init)

/-- mu_json_parse_c_str, with the input given as the byte values of the string. -/
def mu_json_parse_c_str (max_tokens : Nat) (input : List Nat) : Int :=
  (parse max_tokens input).1

/-- The bytes of a token's slice within the parse input. -/
def slice_bytes (input : List Nat) (s : mu_str_t) : List Nat :=
  (input.drop s.off).take s.length

/-! ### Derived notions used to state the claims -/

/-- The observable (type, depth, slice bytes) triple of every token of a
parse result. -/
def token_triples (r : Int × List mu_json_token_t) (input : List Nat) :
    List (Nat × Int × List Nat) :=
  r.2.map (fun t => (t.type, t.depth, slice_bytes input t.json))

/-- Bookend well-formedness of a token store: IS_FIRST exactly on index 0 and
IS_LAST exactly on the final index. -/
def wf_store (ts : List mu_json_token_t) : Prop :=
  ∀ i t, ts[i]? = some t →
    ((t.is_first = true ↔ i = 0) ∧ (t.is_last = true ↔ i = ts.length - 1))

/-- Flag shape of the store while the parse loop runs: IS_FIRST exactly on
index 0, IS_LAST nowhere (it is only set in the endgame). -/
def flags_inv (ts : List mu_json_token_t) : Prop :=
  ∀ i t, ts[i]? = some t → ((t.is_first = true ↔ i = 0) ∧ t.is_last = false)

/-- Depth of the token at index `i` (-1 past the end, as in
`mu_json_token_depth`). -/
def dAt (ts : List mu_json_token_t) (i : Nat) : Int :=
  mu_json_token_depth ts (some i)

/-- The chain of ancestors of a token, by iterating `mu_json_token_parent`
(the parent's index is strictly smaller, so fuel `i + 1` covers the chain). -/
def ancestor_chain (ts : List mu_json_token_t) : Nat → Option Nat → List Nat
  | 0, _ => []
  | fuel + 1, oi =>
    match mu_json_token_parent ts oi with
    | none => []
    | some p => p :: ancestor_chain ts fuel (some p)

/-- `d` is a descendant of `c`: `c` appears in the parent chain of `d`. -/
def is_descendant (ts : List mu_json_token_t) (c d : Nat) : Prop :=
  c ∈ ancestor_chain ts (d + 1) (some d)

instance (ts : List mu_json_token_t) (c d : Nat) :
    Decidable (is_descendant ts c d) := by
  unfold is_descendant; infer_instance

/-! ### Concrete inputs for the scenarios and the observed divergences -/

/-- Scenario S1 input: one leading and two trailing spaces around
an object with keys a, b, c (byte values; 123 and 125 are the braces). -/
def s1_input : List Nat :=
  [32, 123, 34, 97, 34, 58, 49, 49, 49, 44, 32, 34, 98, 34, 58, 91, 50, 50,
   50, 44, 32, 116, 114, 117, 101, 93, 44, 32, 34, 99, 34, 58, 123, 125, 125,
   32, 32]

/-- The 9 expected (kind, depth, slice bytes) triples of scenario S1. -/
def s1_expected : List (Nat × Int × List Nat) :=
  [(MU_JSON_TOKEN_TYPE_OBJECT, 0,
    [123, 34, 97, 34, 58, 49, 49, 49, 44, 32, 34, 98, 34, 58, 91, 50, 50, 50,
     44, 32, 116, 114, 117, 101, 93, 44, 32, 34, 99, 34, 58, 123, 125, 125]),
   (MU_JSON_TOKEN_TYPE_STRING, 1, [34, 97, 34]),
   (MU_JSON_TOKEN_TYPE_NUMBER, 1, [49, 49, 49]),
   (MU_JSON_TOKEN_TYPE_STRING, 1, [34, 98, 34]),
   (MU_JSON_TOKEN_TYPE_ARRAY, 1,
    [91, 50, 50, 50, 44, 32, 116, 114, 117, 101, 93]),
   (MU_JSON_TOKEN_TYPE_NUMBER, 2, [50, 50, 50]),
   (MU_JSON_TOKEN_TYPE_TRUE, 2, [116, 114, 117, 101]),
   (MU_JSON_TOKEN_TYPE_STRING, 1, [34, 99, 34]),
   (MU_JSON_TOKEN_TYPE_OBJECT, 1, [123, 125])]

/-- The deeply nested array input whose middle container is never sealed:
the bytes of three opening and three closing square brackets around 1. -/
def nested_input : List Nat := [91, 91, 91, 49, 93, 93, 93]

/-- An object whose second member, after an array value and a comma, is the
bare number 777 (bytes of: brace, quote, a, quote, colon, bracket, 1, comma,
2, bracket, comma, 7, 7, 7, brace). -/
def badkey_input : List Nat :=
  [123, 34, 97, 34, 58, 91, 49, 44, 50, 93, 44, 55, 55, 55, 125]

/-- Scenario S6 input: an unterminated object (brace, quote, a, quote,
colon, 1). -/
def s6_input : List Nat := [123, 34, 97, 34, 58, 49]

/-- An unterminated string at depth 0 (quote, a, b, c). -/
def unterm_string_input : List Nat := [34, 97, 98, 99]

/-- An invalid input (bracket, 1, space, 2, bracket) that exhausts a 1-token
store before its format error is reached. -/
def c6_input : List Nat := [91, 49, 32, 50, 93]

/-! ## Basic lemmas about the parser building blocks -/

theorem classify_char_valid (ch : Nat) :
    classify_char ch < 31 ∨ classify_char ch = 255 := by
  unfold classify_char
  by_cases h : ch ≥ 128
  · simp [h, C_ETC]
  · have h' : ch < 128 := by omega
    simp only [h, if_false]
    have hall : ∀ c, c < 128 →
        ascii_classes.getD c ERR < 31 ∨ ascii_classes.getD c ERR = 255 := by
      decide
    exact hall ch h'

@[simp] theorem finish_token_tokens_length (L : Nat) (p : parser_t)
    (oi : Option Nat) (b : Bool) :
    (finish_token L p oi b).tokens.length = p.tokens.length := by
  unfold finish_token
  rcases oi with _ | i
  · rfl
  · rcases h : p.tokens[i]? with _ | t
    · simp [h]
    · simp only [h]
      split
      · rfl
      · simp

@[simp] theorem finish_token_error (L : Nat) (p : parser_t)
    (oi : Option Nat) (b : Bool) :
    (finish_token L p oi b).error = p.error := by
  unfold finish_token
  rcases oi with _ | i
  · rfl
  · rcases h : p.tokens[i]? with _ | t
    · simp [h]
    · simp only [h]
      split <;> rfl

@[simp] theorem finish_token_state (L : Nat) (p : parser_t)
    (oi : Option Nat) (b : Bool) :
    (finish_token L p oi b).state = p.state := by
  unfold finish_token
  rcases oi with _ | i
  · rfl
  · rcases h : p.tokens[i]? with _ | t
    · simp [h]
    · simp only [h]
      split <;> rfl

@[simp] theorem finish_token_depth (L : Nat) (p : parser_t)
    (oi : Option Nat) (b : Bool) :
    (finish_token L p oi b).depth = p.depth := by
  unfold finish_token
  rcases oi with _ | i
  · rfl
  · rcases h : p.tokens[i]? with _ | t
    · simp [h]
    · simp only [h]
      split <;> rfl

@[simp] theorem finish_token_char_pos (L : Nat) (p : parser_t)
    (oi : Option Nat) (b : Bool) :
    (finish_token L p oi b).char_pos = p.char_pos := by
  unfold finish_token
  rcases oi with _ | i
  · rfl
  · rcases h : p.tokens[i]? with _ | t
    · simp [h]
    · simp only [h]
      split <;> rfl

/-- finish_token either leaves the parser alone or re-slices and seals one
existing unsealed token in place. -/
theorem finish_token_cases (L : Nat) (p : parser_t) (oi : Option Nat)
    (b : Bool) :
    finish_token L p oi b = p ∨
    ∃ i t, oi = some i ∧ p.tokens[i]? = some t ∧ t.is_sealed = false ∧
      finish_token L p oi b =
        { p with
          tokens := p.tokens.set i
            { t with
              json := mu_str_slice { off := 0, length := L } (L - t.json.length)
                (if b then p.char_pos + 1 else p.char_pos)
              is_sealed := true } } := by
  unfold finish_token
  rcases oi with _ | i
  · exact Or.inl rfl
  · rcases h : p.tokens[i]? with _ | t
    · simp [h]
    · simp only [h]
      by_cases hs : t.is_sealed
      · simp [hs]
      · refine Or.inr ⟨i, t, rfl, h, by simp [hs], ?_⟩
        simp [hs]

theorem std_alloc_eq (L M : Nat) (p : parser_t) (ty s : Nat) :
    std_alloc L M p ty s =
      if p.tokens.length ≥ M then { p with error := -2 }
      else
        { p with
          tokens := p.tokens ++
            [{ json := mu_str_slice { off := 0, length := L } p.char_pos MU_STR_END
               type := ty
               is_first := p.tokens.length + 1 = 1
               is_last := false
               is_sealed := false
               depth := p.depth }]
          state := s } := by
  unfold std_alloc begin_token
  by_cases h : p.tokens.length ≥ M
  · simp [h]
  · simp [h]

@[simp] theorem std_alloc_char_pos (L M : Nat) (p : parser_t) (ty s : Nat) :
    (std_alloc L M p ty s).char_pos = p.char_pos := by
  rw [std_alloc_eq]; split <;> rfl

theorem std_alloc_tokens_mono (L M : Nat) (p : parser_t) (ty s : Nat) :
    p.tokens.length ≤ (std_alloc L M p ty s).tokens.length := by
  rw [std_alloc_eq]; split <;> simp

theorem std_alloc_tokens_le_max (L M : Nat) (p : parser_t) (ty s : Nat)
    (h : p.tokens.length ≤ M) :
    (std_alloc L M p ty s).tokens.length ≤ M := by
  rw [std_alloc_eq]
  split
  · simpa using h
  · simp only [List.length_append, List.length_cons, List.length_nil]
    omega

theorem std_alloc_error (L M : Nat) (p : parser_t) (ty s : Nat) :
    (std_alloc L M p ty s).error = p.error ∨
      (std_alloc L M p ty s).error = -2 := by
  rw [std_alloc_eq]; split
  · exact Or.inr rfl
  · exact Or.inl rfl

@[simp] theorem do_begin_container_char_pos (L M : Nat) (p : parser_t)
    (ty s : Nat) :
    (do_begin_container L M p ty s).char_pos = p.char_pos := by
  unfold do_begin_container; simp

theorem do_begin_container_tokens_mono (L M : Nat) (p : parser_t) (ty s : Nat) :
    p.tokens.length ≤ (do_begin_container L M p ty s).tokens.length := by
  unfold do_begin_container; dsimp only
  exact std_alloc_tokens_mono L M p ty s

theorem do_begin_container_tokens_le_max (L M : Nat) (p : parser_t) (ty s : Nat)
    (h : p.tokens.length ≤ M) :
    (do_begin_container L M p ty s).tokens.length ≤ M := by
  unfold do_begin_container; dsimp only
  exact std_alloc_tokens_le_max L M p ty s h

theorem do_begin_container_error (L M : Nat) (p : parser_t) (ty s : Nat) :
    (do_begin_container L M p ty s).error = p.error ∨
      (do_begin_container L M p ty s).error = -2 := by
  unfold do_begin_container; dsimp only
  exact std_alloc_error L M p ty s

@[simp] theorem do_finish_container_tokens_length (L : Nat) (p : parser_t)
    (cty : Nat) :
    (do_finish_container L p cty).tokens.length = p.tokens.length := by
  unfold do_finish_container; dsimp only
  split
  · simp
  · split <;> simp

@[simp] theorem do_finish_container_error (L : Nat) (p : parser_t) (cty : Nat) :
    (do_finish_container L p cty).error = p.error := by
  unfold do_finish_container; dsimp only
  split
  · simp
  · split <;> simp

@[simp] theorem do_finish_container_char_pos (L : Nat) (p : parser_t)
    (cty : Nat) :
    (do_finish_container L p cty).char_pos = p.char_pos := by
  unfold do_finish_container; dsimp only
  split
  · simp
  · split <;> simp

@[simp] theorem do_Pl_tokens_length (L : Nat) (p : parser_t) :
    (do_Pl L p).tokens.length = p.tokens.length := by
  unfold do_Pl; simp

@[simp] theorem do_Pl_error (L : Nat) (p : parser_t) :
    (do_Pl L p).error = p.error := by
  unfold do_Pl; simp

@[simp] theorem do_Pl_char_pos (L : Nat) (p : parser_t) :
    (do_Pl L p).char_pos = p.char_pos := by
  unfold do_Pl; simp

@[simp] theorem do_Pm_tokens_length (L : Nat) (p : parser_t) :
    (do_Pm L p).tokens.length = p.tokens.length := by
  unfold do_Pm; simp

@[simp] theorem do_Pm_error (L : Nat) (p : parser_t) :
    (do_Pm L p).error = p.error := by
  unfold do_Pm; simp

@[simp] theorem do_Pm_char_pos (L : Nat) (p : parser_t) :
    (do_Pm L p).char_pos = p.char_pos := by
  unfold do_Pm; simp

@[simp] theorem do_Ps_tokens_length (L : Nat) (p : parser_t) :
    (do_Ps L p).tokens.length = p.tokens.length := by
  unfold do_Ps; dsimp only
  split <;> simp

@[simp] theorem do_Ps_error (L : Nat) (p : parser_t) :
    (do_Ps L p).error = p.error := by
  unfold do_Ps; dsimp only
  split <;> simp

@[simp] theorem do_Ps_char_pos (L : Nat) (p : parser_t) :
    (do_Ps L p).char_pos = p.char_pos := by
  unfold do_Ps; dsimp only
  split <;> simp

@[simp] theorem do_Pq_tokens_length (L : Nat) (p : parser_t) :
    (do_Pq L p).tokens.length = p.tokens.length := by
  unfold do_Pq; simp

@[simp] theorem do_Pq_error (L : Nat) (p : parser_t) :
    (do_Pq L p).error = p.error := by
  unfold do_Pq; simp

@[simp] theorem do_Pq_char_pos (L : Nat) (p : parser_t) :
    (do_Pq L p).char_pos = p.char_pos := by
  unfold do_Pq; simp

/-! Dispatch equations: one per outcome of the transition-table lookup. -/

theorem lookup_arith (v : Nat) :
    v < 31 ∨ v = 32 ∨ v = 33 ∨ v = 34 ∨ v = 35 ∨ v = 36 ∨ v = 37 ∨ v = 38 ∨
    v = 39 ∨ v = 40 ∨ v = 41 ∨ v = 42 ∨ v = 43 ∨ v = 44 ∨ v = 45 ∨ v = 46 ∨
    (31 ≤ v ∧ v ≠ 32 ∧ v ≠ 33 ∧ v ≠ 34 ∧ v ≠ 35 ∧ v ≠ 36 ∧ v ≠ 37 ∧ v ≠ 38 ∧
     v ≠ 39 ∧ v ≠ 40 ∧ v ≠ 41 ∧ v ≠ 42 ∧ v ≠ 43 ∧ v ≠ 44 ∧ v ≠ 45 ∧ v ≠ 46) := by
  omega

theorem parse_step_pure (L M : Nat) (p : parser_t) (cls : Nat)
    (h : lookup_state p.state cls < NR_STATES) :
    parse_step L M p cls = { p with state := lookup_state p.state cls } := by
  unfold parse_step; dsimp only
  rw [if_pos h]

theorem parse_step_Ba (L M : Nat) (p : parser_t) (cls : Nat)
    (h : lookup_state p.state cls = Ba) :
    parse_step L M p cls = do_begin_container L M p MU_JSON_TOKEN_TYPE_ARRAY AR := by
  unfold parse_step; dsimp only
  simp only [h]
  norm_num [NR_STATES, Ba]

theorem parse_step_Bd (L M : Nat) (p : parser_t) (cls : Nat)
    (h : lookup_state p.state cls = Bd) :
    parse_step L M p cls = std_alloc L M p MU_JSON_TOKEN_TYPE_NUMBER IN := by
  unfold parse_step; dsimp only
  simp only [h]
  norm_num [NR_STATES, Ba, Bd]

theorem parse_step_Bf (L M : Nat) (p : parser_t) (cls : Nat)
    (h : lookup_state p.state cls = Bf) :
    parse_step L M p cls = std_alloc L M p MU_JSON_TOKEN_TYPE_FALSE F1 := by
  unfold parse_step; dsimp only
  simp only [h]
  norm_num [NR_STATES, Ba, Bd, Bf]

theorem parse_step_Bm (L M : Nat) (p : parser_t) (cls : Nat)
    (h : lookup_state p.state cls = Bm) :
    parse_step L M p cls = std_alloc L M p MU_JSON_TOKEN_TYPE_NUMBER MI := by
  unfold parse_step; dsimp only
  simp only [h]
  norm_num [NR_STATES, Ba, Bd, Bf, Bm]

theorem parse_step_Bn (L M : Nat) (p : parser_t) (cls : Nat)
    (h : lookup_state p.state cls = Bn) :
    parse_step L M p cls = std_alloc L M p MU_JSON_TOKEN_TYPE_NULL N1 := by
  unfold parse_step; dsimp only
  simp only [h]
  norm_num [NR_STATES, Ba, Bd, Bf, Bm, Bn]

theorem parse_step_Bo (L M : Nat) (p : parser_t) (cls : Nat)
    (h : lookup_state p.state cls = Bo) :
    parse_step L M p cls = do_begin_container L M p MU_JSON_TOKEN_TYPE_OBJECT OB := by
  unfold parse_step; dsimp only
  simp only [h]
  norm_num [NR_STATES, Ba, Bd, Bf, Bm, Bn, Bo]

theorem parse_step_Bs (L M : Nat) (p : parser_t) (cls : Nat)
    (h : lookup_state p.state cls = Bs) :
    parse_step L M p cls = std_alloc L M p MU_JSON_TOKEN_TYPE_STRING ST := by
  unfold parse_step; dsimp only
  simp only [h]
  norm_num [NR_STATES, Ba, Bd, Bf, Bm, Bn, Bo, Bs]

theorem parse_step_Bt (L M : Nat) (p : parser_t) (cls : Nat)
    (h : lookup_state p.state cls = Bt) :
    parse_step L M p cls = std_alloc L M p MU_JSON_TOKEN_TYPE_TRUE T1 := by
  unfold parse_step; dsimp only
  simp only [h]
  norm_num [NR_STATES, Ba, Bd, Bf, Bm, Bn, Bo, Bs, Bt]

theorem parse_step_Bz (L M : Nat) (p : parser_t) (cls : Nat)
    (h : lookup_state p.state cls = Bz) :
    parse_step L M p cls = std_alloc L M p MU_JSON_TOKEN_TYPE_NUMBER ZE := by
  unfold parse_step; dsimp only
  simp only [h]
  norm_num [NR_STATES, Ba, Bd, Bf, Bm, Bn, Bo, Bs, Bt, Bz]

theorem parse_step_Fa (L M : Nat) (p : parser_t) (cls : Nat)
    (h : lookup_state p.state cls = Fa) :
    parse_step L M p cls = do_finish_container L p MU_JSON_TOKEN_TYPE_ARRAY := by
  unfold parse_step; dsimp only
  simp only [h]
  norm_num [NR_STATES, Ba, Bd, Bf, Bm, Bn, Bo, Bs, Bt, Bz, Fa]

theorem parse_step_Fo (L M : Nat) (p : parser_t) (cls : Nat)
    (h : lookup_state p.state cls = Fo) :
    parse_step L M p cls = do_finish_container L p MU_JSON_TOKEN_TYPE_OBJECT := by
  unfold parse_step; dsimp only
  simp only [h]
  norm_num [NR_STATES, Ba, Bd, Bf, Bm, Bn, Bo, Bs, Bt, Bz, Fa, Fo]

theorem parse_step_Pl (L M : Nat) (p : parser_t) (cls : Nat)
    (h : lookup_state p.state cls = Pl) :
    parse_step L M p cls = do_Pl L p := by
  unfold parse_step; dsimp only
  simp only [h]
  norm_num [NR_STATES, Ba, Bd, Bf, Bm, Bn, Bo, Bs, Bt, Bz, Fa, Fo, Pl]

theorem parse_step_Pm (L M : Nat) (p : parser_t) (cls : Nat)
    (h : lookup_state p.state cls = Pm) :
    parse_step L M p cls = do_Pm L p := by
  unfold parse_step; dsimp only
  simp only [h]
  norm_num [NR_STATES, Ba, Bd, Bf, Bm, Bn, Bo, Bs, Bt, Bz, Fa, Fo, Pl, Pm]

theorem parse_step_Ps (L M : Nat) (p : parser_t) (cls : Nat)
    (h : lookup_state p.state cls = Ps) :
    parse_step L M p cls = do_Ps L p := by
  unfold parse_step; dsimp only
  simp only [h]
  norm_num [NR_STATES, Ba, Bd, Bf, Bm, Bn, Bo, Bs, Bt, Bz, Fa, Fo, Pl, Pm, Ps]

theorem parse_step_Pq (L M : Nat) (p : parser_t) (cls : Nat)
    (h : lookup_state p.state cls = Pq) :
    parse_step L M p cls = do_Pq L p := by
  unfold parse_step; dsimp only
  simp only [h]
  norm_num [NR_STATES, Ba, Bd, Bf, Bm, Bn, Bo, Bs, Bt, Bz, Fa, Fo, Pl, Pm, Ps, Pq]

theorem parse_step_default (L M : Nat) (p : parser_t) (cls : Nat)
    (h1 : 31 ≤ lookup_state p.state cls)
    (h : lookup_state p.state cls ≠ 32 ∧ lookup_state p.state cls ≠ 33 ∧
      lookup_state p.state cls ≠ 34 ∧ lookup_state p.state cls ≠ 35 ∧
      lookup_state p.state cls ≠ 36 ∧ lookup_state p.state cls ≠ 37 ∧
      lookup_state p.state cls ≠ 38 ∧ lookup_state p.state cls ≠ 39 ∧
      lookup_state p.state cls ≠ 40 ∧ lookup_state p.state cls ≠ 41 ∧
      lookup_state p.state cls ≠ 42 ∧ lookup_state p.state cls ≠ 43 ∧
      lookup_state p.state cls ≠ 44 ∧ lookup_state p.state cls ≠ 45 ∧
      lookup_state p.state cls ≠ 46) :
    parse_step L M p cls = { p with error := -1 } := by
  obtain ⟨a1, a2, a3, a4, a5, a6, a7, a8, a9, a10, a11, a12, a13, a14, a15⟩ := h
  unfold parse_step; dsimp only
  rw [if_neg (by simp only [NR_STATES]; omega : ¬ lookup_state p.state cls < NR_STATES)]
  rw [if_neg (by simpa [Ba] using a1), if_neg (by simpa [Bd] using a2),
    if_neg (by simpa [Bf] using a3), if_neg (by simpa [Bm] using a4),
    if_neg (by simpa [Bn] using a5), if_neg (by simpa [Bo] using a6),
    if_neg (by simpa [Bs] using a7), if_neg (by simpa [Bt] using a8),
    if_neg (by simpa [Bz] using a9), if_neg (by simpa [Fa] using a10),
    if_neg (by simpa [Fo] using a11), if_neg (by simpa [Pl] using a12),
    if_neg (by simpa [Pm] using a13), if_neg (by simpa [Ps] using a14),
    if_neg (by simpa [Pq] using a15)]

/-- Every step is one of: a pure state transition, an allocation, a container
begin or finish, one of the four P-actions, or the format-error default. -/
theorem parse_step_cases (L M : Nat) (p : parser_t) (cls : Nat) :
    (∃ v, v < NR_STATES ∧ lookup_state p.state cls = v ∧
      parse_step L M p cls = { p with state := v }) ∨
    (∃ ty s, parse_step L M p cls = std_alloc L M p ty s) ∨
    (∃ ty s, parse_step L M p cls = do_begin_container L M p ty s) ∨
    (∃ cty, parse_step L M p cls = do_finish_container L p cty) ∨
    parse_step L M p cls = do_Pl L p ∨
    parse_step L M p cls = do_Pm L p ∨
    parse_step L M p cls = do_Ps L p ∨
    parse_step L M p cls = do_Pq L p ∨
    parse_step L M p cls = { p with error := -1 } := by
  rcases lookup_arith (lookup_state p.state cls) with
    h|h|h|h|h|h|h|h|h|h|h|h|h|h|h|h|⟨h1,h2⟩
  · exact Or.inl ⟨_, h, rfl, parse_step_pure L M p cls h⟩
  · exact Or.inr (Or.inr (Or.inl ⟨_, _, parse_step_Ba L M p cls h⟩))
  · exact Or.inr (Or.inl ⟨_, _, parse_step_Bd L M p cls h⟩)
  · exact Or.inr (Or.inl ⟨_, _, parse_step_Bf L M p cls h⟩)
  · exact Or.inr (Or.inl ⟨_, _, parse_step_Bm L M p cls h⟩)
  · exact Or.inr (Or.inl ⟨_, _, parse_step_Bn L M p cls h⟩)
  · exact Or.inr (Or.inr (Or.inl ⟨_, _, parse_step_Bo L M p cls h⟩))
  · exact Or.inr (Or.inl ⟨_, _, parse_step_Bs L M p cls h⟩)
  · exact Or.inr (Or.inl ⟨_, _, parse_step_Bt L M p cls h⟩)
  · exact Or.inr (Or.inl ⟨_, _, parse_step_Bz L M p cls h⟩)
  · exact Or.inr (Or.inr (Or.inr (Or.inl ⟨_, parse_step_Fa L M p cls h⟩)))
  · exact Or.inr (Or.inr (Or.inr (Or.inl ⟨_, parse_step_Fo L M p cls h⟩)))
  · exact Or.inr (Or.inr (Or.inr (Or.inr (Or.inl (parse_step_Pl L M p cls h)))))
  · exact Or.inr (Or.inr (Or.inr (Or.inr (Or.inr (Or.inl
      (parse_step_Pm L M p cls h))))))
  · exact Or.inr (Or.inr (Or.inr (Or.inr (Or.inr (Or.inr (Or.inl
      (parse_step_Ps L M p cls h)))))))
  · exact Or.inr (Or.inr (Or.inr (Or.inr (Or.inr (Or.inr (Or.inr (Or.inl
      (parse_step_Pq L M p cls h))))))))
  · exact Or.inr (Or.inr (Or.inr (Or.inr (Or.inr (Or.inr (Or.inr (Or.inr
      (parse_step_default L M p cls h1 h2))))))))

theorem parse_step_tokens_mono (L M : Nat) (p : parser_t) (cls : Nat) :
    p.tokens.length ≤ (parse_step L M p cls).tokens.length := by
  rcases parse_step_cases L M p cls with
    ⟨v,hv,hl,h⟩|⟨ty,s,h⟩|⟨ty,s,h⟩|⟨cty,h⟩|h|h|h|h|h
  all_goals rw [h]
  all_goals
    first
    | exact Nat.le_refl _
    | exact std_alloc_tokens_mono L M p _ _
    | exact do_begin_container_tokens_mono L M p _ _
    | simp

theorem parse_step_tokens_le_max (L M : Nat) (p : parser_t) (cls : Nat)
    (h0 : p.tokens.length ≤ M) :
    (parse_step L M p cls).tokens.length ≤ M := by
  rcases parse_step_cases L M p cls with
    ⟨v,hv,hl,h⟩|⟨ty,s,h⟩|⟨ty,s,h⟩|⟨cty,h⟩|h|h|h|h|h
  all_goals rw [h]
  all_goals
    first
    | exact h0
    | exact std_alloc_tokens_le_max L M p _ _ h0
    | exact do_begin_container_tokens_le_max L M p _ _ h0
    | simpa using h0

theorem parse_step_error (L M : Nat) (p : parser_t) (cls : Nat) :
    (parse_step L M p cls).error = p.error ∨ (parse_step L M p cls).error = -1 ∨
      (parse_step L M p cls).error = -2 := by
  rcases parse_step_cases L M p cls with
    ⟨v,hv,hl,h⟩|⟨ty,s,h⟩|⟨ty,s,h⟩|⟨cty,h⟩|h|h|h|h|h
  all_goals rw [h]
  all_goals
    first
    | exact Or.inl rfl
    | exact Or.inr (Or.inl rfl)
    | exact (std_alloc_error L M p _ _).imp id Or.inr
    | exact (do_begin_container_error L M p _ _).imp id Or.inr
    | exact Or.inl (by simp)

/-! ## Preservation of the flag shape (IS_FIRST at 0, IS_LAST nowhere) -/

theorem finish_token_flags_at (L : Nat) (p : parser_t) (oi : Option Nat)
    (b : Bool) (i : Nat) :
    ((finish_token L p oi b).tokens[i]?).map
        (fun t : mu_json_token_t => (t.is_first, t.is_last)) =
      (p.tokens[i]?).map (fun t : mu_json_token_t => (t.is_first, t.is_last)) := by
  rcases finish_token_cases L p oi b with h | ⟨j, t, _, hj, _, h⟩
  · rw [h]
  · rw [h]
    dsimp only
    by_cases hij : j = i
    · subst hij
      have hlt : j < p.tokens.length := (List.getElem?_eq_some.mp hj).1
      rw [List.getElem?_set_self hlt, hj]
      rfl
    · rw [List.getElem?_set_ne hij]

theorem flags_inv_of_flags_at (ts ts' : List mu_json_token_t)
    (hat : ∀ i : Nat, (ts'[i]?).map
        (fun t : mu_json_token_t => (t.is_first, t.is_last)) =
      (ts[i]?).map (fun t : mu_json_token_t => (t.is_first, t.is_last)))
    (hinv : flags_inv ts) : flags_inv ts' := by
  intro i t hi
  have h := hat i
  rw [hi] at h
  rcases ht : ts[i]? with _ | u
  · rw [ht] at h; simp at h
  · rw [ht] at h
    simp only [Option.map_some'] at h
    have h2 : (t.is_first, t.is_last) = (u.is_first, u.is_last) :=
      Option.some.inj h
    have hf : t.is_first = u.is_first := congrArg Prod.fst h2
    have hl : t.is_last = u.is_last := congrArg Prod.snd h2
    rw [hf, hl]
    exact hinv i u ht

theorem finish_token_flags (L : Nat) (p : parser_t) (oi : Option Nat)
    (b : Bool) (h : flags_inv p.tokens) :
    flags_inv (finish_token L p oi b).tokens := by
  exact flags_inv_of_flags_at p.tokens _
    (fun i => finish_token_flags_at L p oi b i) h

theorem std_alloc_flags (L M : Nat) (p : parser_t) (ty s : Nat)
    (h : flags_inv p.tokens) : flags_inv (std_alloc L M p ty s).tokens := by
  rw [std_alloc_eq]
  split
  · exact h
  · intro i t hi
    dsimp only at hi
    rcases Nat.lt_trichotomy i p.tokens.length with hlt | heq | hgt
    · rw [List.getElem?_append, if_pos hlt] at hi
      exact h i t hi
    · subst heq
      rw [List.getElem?_concat_length] at hi
      injection hi with hi'
      subst hi'
      refine ⟨?_, rfl⟩
      constructor
      · intro hh
        have : p.tokens.length + 1 = 1 := of_decide_eq_true hh
        omega
      · intro hh
        rw [hh]
        simp [hh]
    · rw [List.getElem?_eq_none (by simp only [List.length_append,
        List.length_cons, List.length_nil]; omega)] at hi
      cases hi

theorem do_begin_container_flags (L M : Nat) (p : parser_t) (ty s : Nat)
    (h : flags_inv p.tokens) :
    flags_inv (do_begin_container L M p ty s).tokens := by
  unfold do_begin_container; dsimp only
  exact std_alloc_flags L M p ty s h

theorem do_finish_container_flags_at (L : Nat) (p : parser_t) (cty : Nat)
    (i : Nat) :
    ((do_finish_container L p cty).tokens[i]?).map
        (fun t : mu_json_token_t => (t.is_first, t.is_last)) =
      (p.tokens[i]?).map (fun t : mu_json_token_t => (t.is_first, t.is_last)) := by
  unfold do_finish_container; dsimp only
  split
  · rw [finish_token_flags_at, finish_token_flags_at]
  · split
    · rw [finish_token_flags_at]
    · rw [finish_token_flags_at]

theorem do_Pl_flags_at (L : Nat) (p : parser_t) (i : Nat) :
    ((do_Pl L p).tokens[i]?).map
        (fun t : mu_json_token_t => (t.is_first, t.is_last)) =
      (p.tokens[i]?).map (fun t : mu_json_token_t => (t.is_first, t.is_last)) := by
  unfold do_Pl; dsimp only
  rw [finish_token_flags_at]

theorem do_Pm_flags_at (L : Nat) (p : parser_t) (i : Nat) :
    ((do_Pm L p).tokens[i]?).map
        (fun t : mu_json_token_t => (t.is_first, t.is_last)) =
      (p.tokens[i]?).map (fun t : mu_json_token_t => (t.is_first, t.is_last)) := by
  unfold do_Pm; dsimp only
  rw [finish_token_flags_at]

theorem do_Ps_flags_at (L : Nat) (p : parser_t) (i : Nat) :
    ((do_Ps L p).tokens[i]?).map
        (fun t : mu_json_token_t => (t.is_first, t.is_last)) =
      (p.tokens[i]?).map (fun t : mu_json_token_t => (t.is_first, t.is_last)) := by
  unfold do_Ps; dsimp only
  split
  · rw [finish_token_flags_at]
  · rfl

theorem do_Pq_flags_at (L : Nat) (p : parser_t) (i : Nat) :
    ((do_Pq L p).tokens[i]?).map
        (fun t : mu_json_token_t => (t.is_first, t.is_last)) =
      (p.tokens[i]?).map (fun t : mu_json_token_t => (t.is_first, t.is_last)) := by
  unfold do_Pq; dsimp only
  rw [finish_token_flags_at]

theorem parse_step_flags (L M : Nat) (p : parser_t) (cls : Nat)
    (h : flags_inv p.tokens) : flags_inv (parse_step L M p cls).tokens := by
  rcases parse_step_cases L M p cls with
    ⟨v,hv,hl,hh⟩|⟨ty,s,hh⟩|⟨ty,s,hh⟩|⟨cty,hh⟩|hh|hh|hh|hh|hh
  all_goals rw [hh]
  · exact h
  · exact std_alloc_flags L M p _ _ h
  · exact do_begin_container_flags L M p _ _ h
  · exact flags_inv_of_flags_at p.tokens _
      (fun i => do_finish_container_flags_at L p _ i) h
  · exact flags_inv_of_flags_at p.tokens _ (fun i => do_Pl_flags_at L p i) h
  · exact flags_inv_of_flags_at p.tokens _ (fun i => do_Pm_flags_at L p i) h
  · exact flags_inv_of_flags_at p.tokens _ (fun i => do_Ps_flags_at L p i) h
  · exact flags_inv_of_flags_at p.tokens _ (fun i => do_Pq_flags_at L p i) h
  · exact h

/-! ## Lemmas about the parse loop -/

theorem parse_loop_stick (input : List Nat) (M fuel : Nat) (p : parser_t)
    (h : p.error ≠ 0) : parse_loop input M fuel p = p := by
  cases fuel with
  | zero => rfl
  | succ f => rw [parse_loop, if_pos h]

theorem parse_loop_tokens_mono (input : List Nat) (M : Nat) :
    ∀ fuel p, p.tokens.length ≤ (parse_loop input M fuel p).tokens.length := by
  intro fuel
  induction fuel with
  | zero => intro p; exact Nat.le_refl _
  | succ f ih =>
    intro p
    rw [parse_loop]
    by_cases he : p.error ≠ 0
    · rw [if_pos he]
    · rw [if_neg he]
      rcases hch : input[p.char_pos]? with _ | ch
      · simp only [hch]
        exact parse_step_tokens_mono _ _ _ _
      · simp only [hch]
        have h3 := ih { parse_step input.length M p (classify_char ch) with
          char_pos := (parse_step input.length M p (classify_char ch)).char_pos + 1 }
        exact Nat.le_trans (parse_step_tokens_mono input.length M p (classify_char ch)) h3

theorem parse_loop_tokens_le_max (input : List Nat) (M : Nat) :
    ∀ fuel p, p.tokens.length ≤ M →
      (parse_loop input M fuel p).tokens.length ≤ M := by
  intro fuel
  induction fuel with
  | zero => intro p h; exact h
  | succ f ih =>
    intro p h
    rw [parse_loop]
    by_cases he : p.error ≠ 0
    · rw [if_pos he]; exact h
    · rw [if_neg he]
      rcases hch : input[p.char_pos]? with _ | ch
      · simp only [hch]
        exact parse_step_tokens_le_max _ _ _ _ h
      · simp only [hch]
        have h1 := parse_step_tokens_le_max input.length M p (classify_char ch) h
        have h2 := ih { parse_step input.length M p (classify_char ch) with
          char_pos := (parse_step input.length M p (classify_char ch)).char_pos + 1 }
          (by simpa using h1)
        simpa using h2

theorem parse_loop_error3 (input : List Nat) (M : Nat) :
    ∀ fuel p, (parse_loop input M fuel p).error = p.error ∨
      (parse_loop input M fuel p).error = -1 ∨
      (parse_loop input M fuel p).error = -2 := by
  intro fuel
  induction fuel with
  | zero => intro p; exact Or.inl rfl
  | succ f ih =>
    intro p
    rw [parse_loop]
    by_cases he : p.error ≠ 0
    · rw [if_pos he]; exact Or.inl rfl
    · rw [if_neg he]
      rcases hch : input[p.char_pos]? with _ | ch
      · simp only [hch]
        simpa using parse_step_error input.length M p C_SPACE
      · simp only [hch]
        rcases ih { parse_step input.length M p (classify_char ch) with
          char_pos := (parse_step input.length M p (classify_char ch)).char_pos + 1 }
          with h | h | h
        · rcases parse_step_error input.length M p (classify_char ch) with
            h' | h' | h'
          · exact Or.inl (by rw [h]; exact h')
          · exact Or.inr (Or.inl (by rw [h]; exact h'))
          · exact Or.inr (Or.inr (by rw [h]; exact h'))
        · exact Or.inr (Or.inl h)
        · exact Or.inr (Or.inr h)

theorem parse_loop_flags (input : List Nat) (M : Nat) :
    ∀ fuel p, flags_inv p.tokens →
      flags_inv (parse_loop input M fuel p).tokens := by
  intro fuel
  induction fuel with
  | zero => intro p h; exact h
  | succ f ih =>
    intro p h
    rw [parse_loop]
    by_cases he : p.error ≠ 0
    · rw [if_pos he]; exact h
    · rw [if_neg he]
      rcases hch : input[p.char_pos]? with _ | ch
      · simp only [hch]
        exact parse_step_flags _ _ _ _ h
      · simp only [hch]
        exact ih _ (parse_step_flags _ _ _ _ h)

/-! ## The endgame (parse_end) -/

theorem parse_end_retval_neg2 (L : Nat) (p : parser_t) :
    (parse_end L p).1 = -2 ↔ p.error = -2 := by
  unfold parse_end
  by_cases he : p.error ≠ 0
  · rw [if_pos he]
  · rw [if_neg he]
    push_neg at he
    constructor
    · intro h
      exfalso
      by_cases hd : p.depth ≠ 0
      · rw [if_pos hd] at h; omega
      · rw [if_neg hd] at h
        by_cases hs : p.state ≠ OK
        · rw [if_pos hs] at h; omega
        · rw [if_neg hs] at h
          rcases ht : tos p with _ | last
          · rw [ht] at h
            dsimp only at h
            omega
          · rw [ht] at h
            dsimp only at h
            omega
    · intro h; rw [he] at h; omega

theorem finish_token_tokens_congr (L : Nat) (oi : Option Nat) (b : Bool)
    (p q : parser_t) (ht : p.tokens = q.tokens) (hc : p.char_pos = q.char_pos) :
    (finish_token L p oi b).tokens = (finish_token L q oi b).tokens := by
  unfold finish_token
  rcases oi with _ | i
  · exact ht
  · rw [← ht]
    rcases hg : p.tokens[i]? with _ | t
    · simp only [hg]
      exact ht
    · simp only [hg]
      split
      · exact ht
      · dsimp only
        rw [ht, hc]

theorem parse_end_success (L : Nat) (p : parser_t) (he : p.error = 0)
    (hd : p.depth = 0) (hs : p.state = OK) :
    (parse_end L p).1 = (p.tokens.length : Int) := by
  unfold parse_end
  rw [if_neg (by omega), if_neg (by omega), if_neg (by simp [hs])]
  rcases ht : tos p with _ | last
  · simp only [ht]
  · simp only [ht]
    rcases hg : p.tokens[last]? with _ | t
    · simp only [hg]
      simp
    · simp only [hg]
      simp

theorem parse_end_retval_nonneg (L : Nat) (p : parser_t)
    (he3 : p.error = 0 ∨ p.error = -1 ∨ p.error = -2)
    (h : 0 ≤ (parse_end L p).1) :
    p.error = 0 ∧ p.depth = 0 ∧ p.state = OK ∧
      (parse_end L p).1 = (p.tokens.length : Int) := by
  have he : p.error = 0 := by
    by_contra hne
    rw [show parse_end L p = (p.error, p.tokens) from by
      unfold parse_end; rw [if_pos hne]] at h
    dsimp only at h
    omega
  have hd : p.depth = 0 := by
    by_contra hne
    rw [show parse_end L p = (-3, p.tokens) from by
      unfold parse_end; rw [if_neg (by omega), if_pos hne]] at h
    dsimp only at h
    omega
  have hs : p.state = OK := by
    by_contra hne
    rw [show parse_end L p = (-1, p.tokens) from by
      unfold parse_end; rw [if_neg (by omega), if_neg (by omega), if_pos hne]] at h
    dsimp only at h
    omega
  exact ⟨he, hd, hs, parse_end_success L p he hd hs⟩

/-! ## Bookend flags of a successfully parsed store -/

theorem wf_store_of_flags_at (ts ts' : List mu_json_token_t)
    (hlen : ts'.length = ts.length)
    (hat : ∀ i : Nat, (ts'[i]?).map
        (fun t : mu_json_token_t => (t.is_first, t.is_last)) =
      (ts[i]?).map (fun t : mu_json_token_t => (t.is_first, t.is_last)))
    (hinv : wf_store ts) : wf_store ts' := by
  intro i t hi
  have h := hat i
  rw [hi] at h
  rcases ht : ts[i]? with _ | u
  · rw [ht] at h; simp at h
  · rw [ht] at h
    simp only [Option.map_some'] at h
    have h2 : (t.is_first, t.is_last) = (u.is_first, u.is_last) :=
      Option.some.inj h
    have hf : t.is_first = u.is_first := congrArg Prod.fst h2
    have hl : t.is_last = u.is_last := congrArg Prod.snd h2
    rw [hf, hl, hlen]
    exact hinv i u ht

theorem wf_store_set_last (ts : List mu_json_token_t) (t : mu_json_token_t)
    (hinv : flags_inv ts)
    (hg : ts[ts.length - 1]? = some t) :
    wf_store (ts.set (ts.length - 1) { t with is_last := true }) := by
  have hlt : ts.length - 1 < ts.length := (List.getElem?_eq_some.mp hg).1
  intro i u hi
  rw [List.length_set]
  by_cases hil : ts.length - 1 = i
  · rw [← hil] at hi ⊢
    rw [List.getElem?_set_self hlt] at hi
    injection hi with hi'
    subst hi'
    have h0 := hinv _ t hg
    exact ⟨h0.1, by simp⟩
  · rw [List.getElem?_set_ne hil] at hi
    have h0 := hinv i u hi
    refine ⟨h0.1, ?_⟩
    rw [h0.2]
    simp only [Bool.false_eq_true, false_iff]
    omega

theorem parse_end_wf (L : Nat) (p : parser_t) (he : p.error = 0)
    (hd : p.depth = 0) (hs : p.state = OK) (hf : flags_inv p.tokens) :
    wf_store (parse_end L p).2 := by
  unfold parse_end
  rw [if_neg (by omega), if_neg (by omega), if_neg (by simp [hs])]
  rcases ht : tos p with _ | last
  · dsimp only
    have hlen : p.tokens.length = 0 := by
      by_contra hne
      unfold tos at ht
      rw [if_neg hne] at ht
      cases ht
    rw [List.length_eq_zero.mp hlen]
    intro i u hi
    cases hi
  · dsimp only
    have hlast : last = p.tokens.length - 1 ∧ p.tokens.length ≠ 0 := by
      unfold tos at ht
      by_cases hne : p.tokens.length = 0
      · rw [if_pos hne] at ht; cases ht
      · rw [if_neg hne] at ht
        injection ht with ht'
        exact ⟨ht'.symm, hne⟩
    rcases hlast with ⟨hl1, hl2⟩
    subst hl1
    have hlt : p.tokens.length - 1 < p.tokens.length := by omega
    rcases hg : p.tokens[p.tokens.length - 1]? with _ | t
    · rw [List.getElem?_eq_getElem hlt] at hg
      cases hg
    · have hwf1 : wf_store (p.tokens.set (p.tokens.length - 1)
          { t with is_last := true }) := wf_store_set_last p.tokens t hf hg
      refine wf_store_of_flags_at _ _ ?_ ?_ hwf1
      · simp
      · intro i
        exact finish_token_flags_at L _ _ false i

theorem parse_success_wf (k : Nat) (input : List Nat)
    (h : 0 ≤ (parse k input).1) : wf_store (parse k input).2 := by
  have he3 := parse_loop_error3 input k (input.length + 1) parse_init
  rw [show parse_init.error = 0 from rfl] at he3
  have hok := parse_end_retval_nonneg input.length
    (parse_loop input k (input.length + 1) parse_init) he3 h
  have hfl := parse_loop_flags input k (input.length + 1) parse_init
    (by intro i t hi; cases hi)
  exact parse_end_wf input.length _ hok.1 hok.2.1 hok.2.2.1 hfl

/-! ## The start state allocates before leaving GO -/

theorem lookup_GO (c : Nat) (hc : c < 31 ∨ c = 255) :
    lookup_state GO c = GO ∨
      (32 ≤ lookup_state GO c ∧ lookup_state GO c ≤ 40) ∨
      lookup_state GO c = 255 := by
  rcases hc with hc | hc
  · have hall : ∀ c0, c0 < 31 → (lookup_state GO c0 = GO ∨
        (32 ≤ lookup_state GO c0 ∧ lookup_state GO c0 ≤ 40) ∨
        lookup_state GO c0 = 255) := by decide
    exact hall c hc
  · subst hc
    decide

theorem parse_step_GO (L M : Nat) (p : parser_t) (cls : Nat)
    (hc : cls < 31 ∨ cls = 255) (hs : p.state = GO) (ht : p.tokens = []) :
    (parse_step L M p cls).tokens ≠ [] ∨
      ((parse_step L M p cls).tokens = [] ∧ (parse_step L M p cls).state = GO) := by
  have halloc : ∀ ty s, (std_alloc L M p ty s).tokens ≠ [] ∨
      ((std_alloc L M p ty s).tokens = [] ∧ (std_alloc L M p ty s).state = GO) := by
    intro ty s
    rw [std_alloc_eq]
    split
    · exact Or.inr ⟨ht, hs⟩
    · left
      dsimp only
      rw [ht]
      simp
  have hbc : ∀ ty s, (do_begin_container L M p ty s).tokens ≠ [] ∨
      ((do_begin_container L M p ty s).tokens = [] ∧
        (do_begin_container L M p ty s).state = GO) := by
    intro ty s
    unfold do_begin_container
    dsimp only
    exact halloc ty s
  have hg := lookup_GO cls hc
  rw [← hs] at hg
  rcases hg with hg | ⟨h1, h2⟩ | hg
  · right
    rw [parse_step_pure L M p cls (by rw [hg, hs]; decide)]
    exact ⟨ht, by rw [hg, hs]⟩
  · have hv : lookup_state p.state cls = 32 ∨ lookup_state p.state cls = 33 ∨
        lookup_state p.state cls = 34 ∨ lookup_state p.state cls = 35 ∨
        lookup_state p.state cls = 36 ∨ lookup_state p.state cls = 37 ∨
        lookup_state p.state cls = 38 ∨ lookup_state p.state cls = 39 ∨
        lookup_state p.state cls = 40 := by omega
    rcases hv with hv|hv|hv|hv|hv|hv|hv|hv|hv
    · rw [parse_step_Ba L M p cls hv]; exact hbc _ _
    · rw [parse_step_Bd L M p cls hv]; exact halloc _ _
    · rw [parse_step_Bf L M p cls hv]; exact halloc _ _
    · rw [parse_step_Bm L M p cls hv]; exact halloc _ _
    · rw [parse_step_Bn L M p cls hv]; exact halloc _ _
    · rw [parse_step_Bo L M p cls hv]; exact hbc _ _
    · rw [parse_step_Bs L M p cls hv]; exact halloc _ _
    · rw [parse_step_Bt L M p cls hv]; exact halloc _ _
    · rw [parse_step_Bz L M p cls hv]; exact halloc _ _
  · right
    rw [parse_step_default L M p cls (by omega) (by rw [hg]; norm_num)]
    exact ⟨ht, hs⟩

theorem parse_loop_GO (input : List Nat) (M : Nat) :
    ∀ fuel p, (p.tokens = [] → p.state = GO) →
      ((parse_loop input M fuel p).tokens = [] →
        (parse_loop input M fuel p).state = GO) := by
  intro fuel
  induction fuel with
  | zero => intro p h; exact h
  | succ f ih =>
    intro p h
    rw [parse_loop]
    by_cases he : p.error ≠ 0
    · rw [if_pos he]; exact h
    · rw [if_neg he]
      rcases hch : input[p.char_pos]? with _ | ch
      · simp only [hch]
        intro hemp
        by_cases hpt : p.tokens = []
        · rcases parse_step_GO input.length M p C_SPACE (Or.inl (by decide))
            (h hpt) hpt with hne | ⟨_, hgo⟩
          · exact absurd hemp hne
          · exact hgo
        · exfalso
          have := parse_step_tokens_mono input.length M p C_SPACE
          have h2 : (parse_step input.length M p C_SPACE).tokens.length = 0 := by
            have : ({ parse_step input.length M p C_SPACE with char_pos :=
              (parse_step input.length M p C_SPACE).char_pos + 1 }).tokens = [] := hemp
            simpa using congrArg List.length this
          have h3 : p.tokens.length = 0 := by omega
          exact hpt (List.length_eq_zero.mp h3)
      · simp only [hch]
        refine ih _ ?_
        intro hemp
        by_cases hpt : p.tokens = []
        · rcases parse_step_GO input.length M p (classify_char ch)
            (classify_char_valid ch) (h hpt) hpt with hne | ⟨_, hgo⟩
          · exact absurd (by simpa using hemp) hne
          · simpa using hgo
        · exfalso
          have := parse_step_tokens_mono input.length M p (classify_char ch)
          have h2 : (parse_step input.length M p (classify_char ch)).tokens.length
              = 0 := by simpa using congrArg List.length hemp
          have h3 : p.tokens.length = 0 := by omega
          exact hpt (List.length_eq_zero.mp h3)

/-! ## Whitespace-only inputs never leave GO -/

theorem parse_loop_ws (input : List Nat) (M : Nat)
    (hws : ∀ b ∈ input, b = 32 ∨ b = 9 ∨ b = 10 ∨ b = 13) :
    ∀ fuel p, p.state = GO → p.error = 0 → p.depth = 0 → p.tokens = [] →
      ((parse_loop input M fuel p).state = GO ∧
        (parse_loop input M fuel p).error = 0 ∧
        (parse_loop input M fuel p).depth = 0 ∧
        (parse_loop input M fuel p).tokens = []) := by
  intro fuel
  induction fuel with
  | zero => intro p h1 h2 h3 h4; exact ⟨h1, h2, h3, h4⟩
  | succ f ih =>
    intro p h1 h2 h3 h4
    rw [parse_loop]
    rw [if_neg (by omega)]
    rcases hch : input[p.char_pos]? with _ | ch
    · simp only [hch]
      rw [parse_step_pure input.length M p C_SPACE (by rw [h1]; decide)]
      rw [h1]
      refine ⟨?_, h2, h3, h4⟩
      have : lookup_state GO C_SPACE = GO := by decide
      simp [this]
    · simp only [hch]
      have hb := hws ch (List.getElem?_mem hch)
      have hcls : classify_char ch = C_SPACE ∨ classify_char ch = C_WHITE := by
        rcases hb with hb | hb | hb | hb <;> subst hb <;> decide
      have hlk : lookup_state p.state (classify_char ch) = GO := by
        rw [h1]
        rcases hcls with hcls | hcls <;> rw [hcls] <;> decide
      rw [parse_step_pure input.length M p (classify_char ch) (by rw [hlk]; decide)]
      rw [hlk]
      exact ih _ rfl h2 h3 h4

/-! ## Capacity: the parse result depends on max_tokens only through
allocation failure -/

theorem std_alloc_maxMono (L M K : Nat) (p : parser_t) (ty s : Nat)
    (hK : M ≤ K) :
    std_alloc L K p ty s = std_alloc L M p ty s ∨
      (std_alloc L M p ty s).error = -2 := by
  rw [std_alloc_eq, std_alloc_eq]
  by_cases hbig : p.tokens.length ≥ K
  · rw [if_pos hbig, if_pos (by omega)]
    exact Or.inl rfl
  · rw [if_neg hbig]
    by_cases hsmall : p.tokens.length ≥ M
    · rw [if_pos hsmall]
      exact Or.inr rfl
    · rw [if_neg hsmall]
      exact Or.inl rfl

theorem do_begin_container_maxMono (L M K : Nat) (p : parser_t) (ty s : Nat)
    (hK : M ≤ K) :
    do_begin_container L K p ty s = do_begin_container L M p ty s ∨
      (do_begin_container L M p ty s).error = -2 := by
  unfold do_begin_container
  dsimp only
  rcases std_alloc_maxMono L M K p ty s hK with h | h
  · rw [h]
    exact Or.inl rfl
  · exact Or.inr h

theorem parse_step_maxMono (L M K : Nat) (p : parser_t) (cls : Nat)
    (hK : M ≤ K) :
    parse_step L K p cls = parse_step L M p cls ∨
      (parse_step L M p cls).error = -2 := by
  rcases lookup_arith (lookup_state p.state cls) with
    h|h|h|h|h|h|h|h|h|h|h|h|h|h|h|h|⟨h1,h2⟩
  · rw [parse_step_pure L K p cls h, parse_step_pure L M p cls h]
    exact Or.inl rfl
  · rw [parse_step_Ba L K p cls h, parse_step_Ba L M p cls h]
    exact do_begin_container_maxMono L M K p _ _ hK
  · rw [parse_step_Bd L K p cls h, parse_step_Bd L M p cls h]
    exact std_alloc_maxMono L M K p _ _ hK
  · rw [parse_step_Bf L K p cls h, parse_step_Bf L M p cls h]
    exact std_alloc_maxMono L M K p _ _ hK
  · rw [parse_step_Bm L K p cls h, parse_step_Bm L M p cls h]
    exact std_alloc_maxMono L M K p _ _ hK
  · rw [parse_step_Bn L K p cls h, parse_step_Bn L M p cls h]
    exact std_alloc_maxMono L M K p _ _ hK
  · rw [parse_step_Bo L K p cls h, parse_step_Bo L M p cls h]
    exact do_begin_container_maxMono L M K p _ _ hK
  · rw [parse_step_Bs L K p cls h, parse_step_Bs L M p cls h]
    exact std_alloc_maxMono L M K p _ _ hK
  · rw [parse_step_Bt L K p cls h, parse_step_Bt L M p cls h]
    exact std_alloc_maxMono L M K p _ _ hK
  · rw [parse_step_Bz L K p cls h, parse_step_Bz L M p cls h]
    exact std_alloc_maxMono L M K p _ _ hK
  · rw [parse_step_Fa L K p cls h, parse_step_Fa L M p cls h]
    exact Or.inl rfl
  · rw [parse_step_Fo L K p cls h, parse_step_Fo L M p cls h]
    exact Or.inl rfl
  · rw [parse_step_Pl L K p cls h, parse_step_Pl L M p cls h]
    exact Or.inl rfl
  · rw [parse_step_Pm L K p cls h, parse_step_Pm L M p cls h]
    exact Or.inl rfl
  · rw [parse_step_Ps L K p cls h, parse_step_Ps L M p cls h]
    exact Or.inl rfl
  · rw [parse_step_Pq L K p cls h, parse_step_Pq L M p cls h]
    exact Or.inl rfl
  · rw [parse_step_default L K p cls h1 h2, parse_step_default L M p cls h1 h2]
    exact Or.inl rfl

theorem parse_loop_maxMono (input : List Nat) (M K : Nat) (hK : M ≤ K) :
    ∀ fuel p, parse_loop input K fuel p = parse_loop input M fuel p ∨
      (parse_loop input M fuel p).error = -2 := by
  intro fuel
  induction fuel with
  | zero => intro p; exact Or.inl rfl
  | succ f ih =>
    intro p
    rw [parse_loop, parse_loop]
    by_cases he : p.error ≠ 0
    · rw [if_pos he, if_pos he]
      exact Or.inl rfl
    · rw [if_neg he, if_neg he]
      rcases hch : input[p.char_pos]? with _ | ch
      · simp only [hch]
        rcases parse_step_maxMono input.length M K p C_SPACE hK with h | h
        · rw [h]
          exact Or.inl rfl
        · exact Or.inr (by simpa using h)
      · simp only [hch]
        rcases parse_step_maxMono input.length M K p (classify_char ch) hK
          with h | h
        · rw [h]
          exact ih _
        · right
          rw [parse_loop_stick input M f _ (by simpa using (by omega : (parse_step input.length M p (classify_char ch)).error ≠ 0))]
          simpa using h

theorem std_alloc_shrink (L k K : Nat) (p : parser_t) (ty s : Nat)
    (_hkK : k ≤ K) (_hp : p.error = 0)
    (hlen : (std_alloc L K p ty s).tokens.length ≤ k)
    (herr : (std_alloc L K p ty s).error ≠ -2) :
    std_alloc L k p ty s = std_alloc L K p ty s := by
  rw [std_alloc_eq] at hlen herr
  rw [std_alloc_eq, std_alloc_eq]
  by_cases hgeK : p.tokens.length ≥ K
  · rw [if_pos hgeK] at herr
    exact absurd rfl herr
  · rw [if_neg hgeK] at hlen
    dsimp only at hlen
    rw [List.length_append] at hlen
    simp only [List.length_cons, List.length_nil] at hlen
    rw [if_neg hgeK, if_neg (by omega : ¬ p.tokens.length ≥ k)]

theorem do_begin_container_shrink (L k K : Nat) (p : parser_t) (ty s : Nat)
    (hkK : k ≤ K) (hp : p.error = 0)
    (hlen : (do_begin_container L K p ty s).tokens.length ≤ k)
    (herr : (do_begin_container L K p ty s).error ≠ -2) :
    do_begin_container L k p ty s = do_begin_container L K p ty s := by
  have hlen' : (std_alloc L K p ty s).tokens.length ≤ k := hlen
  have herr' : (std_alloc L K p ty s).error ≠ -2 := herr
  unfold do_begin_container
  dsimp only
  rw [std_alloc_shrink L k K p ty s hkK hp hlen' herr']

theorem parse_step_shrink (L k K : Nat) (p : parser_t) (cls : Nat)
    (hkK : k ≤ K) (hp : p.error = 0)
    (hlen : (parse_step L K p cls).tokens.length ≤ k)
    (herr : (parse_step L K p cls).error ≠ -2) :
    parse_step L k p cls = parse_step L K p cls := by
  rcases lookup_arith (lookup_state p.state cls) with
    h|h|h|h|h|h|h|h|h|h|h|h|h|h|h|h|⟨h1,h2⟩
  · rw [parse_step_pure L k p cls h, parse_step_pure L K p cls h]
  · rw [parse_step_Ba L K p cls h] at hlen herr
    rw [parse_step_Ba L k p cls h, parse_step_Ba L K p cls h]
    exact do_begin_container_shrink L k K p _ _ hkK hp hlen herr
  · rw [parse_step_Bd L K p cls h] at hlen herr
    rw [parse_step_Bd L k p cls h, parse_step_Bd L K p cls h]
    exact std_alloc_shrink L k K p _ _ hkK hp hlen herr
  · rw [parse_step_Bf L K p cls h] at hlen herr
    rw [parse_step_Bf L k p cls h, parse_step_Bf L K p cls h]
    exact std_alloc_shrink L k K p _ _ hkK hp hlen herr
  · rw [parse_step_Bm L K p cls h] at hlen herr
    rw [parse_step_Bm L k p cls h, parse_step_Bm L K p cls h]
    exact std_alloc_shrink L k K p _ _ hkK hp hlen herr
  · rw [parse_step_Bn L K p cls h] at hlen herr
    rw [parse_step_Bn L k p cls h, parse_step_Bn L K p cls h]
    exact std_alloc_shrink L k K p _ _ hkK hp hlen herr
  · rw [parse_step_Bo L K p cls h] at hlen herr
    rw [parse_step_Bo L k p cls h, parse_step_Bo L K p cls h]
    exact do_begin_container_shrink L k K p _ _ hkK hp hlen herr
  · rw [parse_step_Bs L K p cls h] at hlen herr
    rw [parse_step_Bs L k p cls h, parse_step_Bs L K p cls h]
    exact std_alloc_shrink L k K p _ _ hkK hp hlen herr
  · rw [parse_step_Bt L K p cls h] at hlen herr
    rw [parse_step_Bt L k p cls h, parse_step_Bt L K p cls h]
    exact std_alloc_shrink L k K p _ _ hkK hp hlen herr
  · rw [parse_step_Bz L K p cls h] at hlen herr
    rw [parse_step_Bz L k p cls h, parse_step_Bz L K p cls h]
    exact std_alloc_shrink L k K p _ _ hkK hp hlen herr
  · rw [parse_step_Fa L k p cls h, parse_step_Fa L K p cls h]
  · rw [parse_step_Fo L k p cls h, parse_step_Fo L K p cls h]
  · rw [parse_step_Pl L k p cls h, parse_step_Pl L K p cls h]
  · rw [parse_step_Pm L k p cls h, parse_step_Pm L K p cls h]
  · rw [parse_step_Ps L k p cls h, parse_step_Ps L K p cls h]
  · rw [parse_step_Pq L k p cls h, parse_step_Pq L K p cls h]
  · rw [parse_step_default L k p cls h1 h2, parse_step_default L K p cls h1 h2]

theorem parse_loop_shrink (input : List Nat) (k K : Nat) (hkK : k ≤ K) :
    ∀ fuel p, (parse_loop input K fuel p).error = 0 →
      (parse_loop input K fuel p).tokens.length ≤ k →
      parse_loop input k fuel p = parse_loop input K fuel p := by
  intro fuel
  induction fuel with
  | zero => intro p _ _; rfl
  | succ f ih =>
    intro p h0 hlen
    rw [parse_loop] at h0 hlen
    rw [parse_loop, parse_loop]
    by_cases he : p.error ≠ 0
    · rw [if_pos he, if_pos he]
    · rw [if_neg he] at h0 hlen
      rw [if_neg he, if_neg he]
      rcases hch : input[p.char_pos]? with _ | ch
      · simp only [hch] at h0 hlen ⊢
        have h0' : (parse_step input.length K p C_SPACE).error = 0 := h0
        have hlen' : (parse_step input.length K p C_SPACE).tokens.length ≤ k :=
          hlen
        rw [parse_step_shrink input.length k K p C_SPACE hkK (by omega) hlen'
          (by rw [h0']; decide)]
      · simp only [hch] at h0 hlen ⊢
        have hq0 : (parse_step input.length K p (classify_char ch)).error
            = 0 := by
          by_contra hne
          have hst := parse_loop_stick input K f
            { parse_step input.length K p (classify_char ch) with
              char_pos :=
                (parse_step input.length K p (classify_char ch)).char_pos + 1 }
            hne
          rw [hst] at h0
          exact hne h0
        have hqlen :
            (parse_step input.length K p (classify_char ch)).tokens.length
              ≤ k := by
          have hmono := parse_loop_tokens_mono input K f
            { parse_step input.length K p (classify_char ch) with
              char_pos :=
                (parse_step input.length K p (classify_char ch)).char_pos + 1 }
          exact le_trans hmono hlen
        rw [parse_step_shrink input.length k K p (classify_char ch) hkK
          (by omega) hqlen (by rw [hq0]; decide)]
        exact ih _ h0 hlen

theorem parse_maxMono (input : List Nat) (k K : Nat) (hkK : k ≤ K) :
    parse K input = parse k input ∨ (parse k input).1 = -2 := by
  unfold parse
  rcases parse_loop_maxMono input k K hkK (input.length + 1) parse_init
    with h | h
  · rw [h]
    exact Or.inl rfl
  · exact Or.inr ((parse_end_retval_neg2 _ _).mpr h)

theorem parse_shrink (input : List Nat) (k K : Nat) (hkK : k ≤ K)
    (h0 : 0 ≤ (parse K input).1)
    (hlen : (parse K input).1 ≤ (k : Int)) :
    parse k input = parse K input := by
  have he3 := parse_loop_error3 input K (input.length + 1) parse_init
  rw [show parse_init.error = 0 from rfl] at he3
  have hok := parse_end_retval_nonneg input.length
    (parse_loop input K (input.length + 1) parse_init) he3 h0
  have hlen' :
      (parse_loop input K (input.length + 1) parse_init).tokens.length ≤ k := by
    have hv := hok.2.2.2
    unfold parse at hlen
    rw [hv] at hlen
    exact_mod_cast hlen
  unfold parse
  rw [parse_loop_shrink input k K hkK (input.length + 1) parse_init hok.1 hlen']

/-! ## Navigation: walk lemmas -/

theorem prev_some_eq (ts : List mu_json_token_t) (i i' : Nat)
    (h : mu_json_token_prev ts (some i) = some i') : i' = i - 1 ∧ i ≠ 0 := by
  unfold mu_json_token_prev at h
  rcases hg : ts[i]? with _ | t
  · simp only [hg] at h
    cases h
  · simp only [hg] at h
    by_cases hf : t.is_first = true
    · rw [if_pos hf] at h
      cases h
    · rw [if_neg hf] at h
      by_cases h0 : i = 0
      · rw [if_pos h0] at h
        cases h
      · rw [if_neg h0] at h
        injection h with h'
        exact ⟨h'.symm, h0⟩

/-- Under the bookend flags, prev is a plain index decrement. -/
theorem prev_wf (ts : List mu_json_token_t) (hwf : wf_store ts) (i : Nat)
    (hi : i < ts.length) :
    mu_json_token_prev ts (some i) = if i = 0 then none else some (i - 1) := by
  unfold mu_json_token_prev
  rcases hg : ts[i]? with _ | t
  · rw [List.getElem?_eq_getElem hi] at hg
    cases hg
  · simp only [hg]
    have hf := (hwf i t hg).1
    by_cases h0 : i = 0
    · rw [if_pos (hf.mpr h0), if_pos h0]
    · rw [if_neg (fun hh => h0 (hf.mp hh)), if_neg h0]

/-- Under the bookend flags, next is a plain index increment. -/
theorem next_wf (ts : List mu_json_token_t) (hwf : wf_store ts) (i : Nat)
    (hi : i < ts.length) :
    mu_json_token_next ts (some i) =
      if i = ts.length - 1 then none else some (i + 1) := by
  unfold mu_json_token_next
  rcases hg : ts[i]? with _ | t
  · rw [List.getElem?_eq_getElem hi] at hg
    cases hg
  · simp only [hg]
    have hl := (hwf i t hg).2
    by_cases h0 : i = ts.length - 1
    · rw [if_pos (hl.mpr h0), if_pos h0]
    · rw [if_neg (fun hh => h0 (hl.mp hh)), if_neg h0]

theorem parent_walk_none (ts : List mu_json_token_t) (d : Int) (fuel : Nat) :
    parent_walk ts d fuel none = none := by
  cases fuel <;> rfl

theorem sib_walk_none (ts : List mu_json_token_t)
    (step : List mu_json_token_t → Option Nat → Option Nat) (d : Int)
    (fuel : Nat) : sib_walk ts step d fuel none = none := by
  cases fuel <;> rfl

theorem parent_walk_some_le (ts : List mu_json_token_t) (d : Int) :
    ∀ fuel oi j, parent_walk ts d fuel oi = some j →
      ∃ i, oi = some i ∧ j ≤ i := by
  intro fuel
  induction fuel with
  | zero =>
    intro oi j h
    simp [parent_walk] at h
  | succ f ih =>
    intro oi j h
    rcases oi with _ | i
    · rw [parent_walk_none] at h
      cases h
    · rw [parent_walk] at h
      by_cases hd : mu_json_token_depth ts (some i) ≥ d
      · rw [if_pos hd] at h
        obtain ⟨i', hi', hj⟩ := ih _ j h
        obtain ⟨he, _⟩ := prev_some_eq ts i i' hi'
        exact ⟨i, rfl, by omega⟩
      · rw [if_neg hd] at h
        injection h with h'
        exact ⟨i, rfl, le_of_eq h'.symm⟩

theorem parent_walk_depth (ts : List mu_json_token_t) (d : Int) :
    ∀ fuel oi j, parent_walk ts d fuel oi = some j →
      mu_json_token_depth ts (some j) < d := by
  intro fuel
  induction fuel with
  | zero =>
    intro oi j h
    simp [parent_walk] at h
  | succ f ih =>
    intro oi j h
    rcases oi with _ | i
    · rw [parent_walk_none] at h
      cases h
    · rw [parent_walk] at h
      by_cases hd : mu_json_token_depth ts (some i) ≥ d
      · rw [if_pos hd] at h
        exact ih _ j h
      · rw [if_neg hd] at h
        injection h with h'
        subst h'
        omega

/-- The parent of a token lies at a strictly smaller index. -/
theorem parent_some_lt (ts : List mu_json_token_t) (i j : Nat)
    (h : mu_json_token_parent ts (some i) = some j) : j < i := by
  unfold mu_json_token_parent at h
  obtain ⟨i0, hi0, hj⟩ := parent_walk_some_le ts _ (i + 1) _ j h
  obtain ⟨he, hne⟩ := prev_some_eq ts i i0 hi0
  omega

/-- The parent of a token has strictly smaller depth. -/
theorem parent_some_depth (ts : List mu_json_token_t) (i j : Nat)
    (h : mu_json_token_parent ts (some i) = some j) :
    mu_json_token_depth ts (some j) < mu_json_token_depth ts (some i) := by
  unfold mu_json_token_parent at h
  exact parent_walk_depth ts _ (i + 1) _ j h

/-- Every member of the ancestor chain lies strictly below in index and
depth. -/
theorem ancestor_chain_mem (ts : List mu_json_token_t) :
    ∀ fuel i c, c ∈ ancestor_chain ts fuel (some i) →
      c < i ∧ mu_json_token_depth ts (some c) < mu_json_token_depth ts (some i) := by
  intro fuel
  induction fuel with
  | zero =>
    intro i c h
    simp [ancestor_chain] at h
  | succ f ih =>
    intro i c h
    rw [ancestor_chain] at h
    rcases hp : mu_json_token_parent ts (some i) with _ | p
    · rw [hp] at h
      simp at h
    · rw [hp] at h
      rcases List.mem_cons.mp h with hc | hc
      · subst hc
        exact ⟨parent_some_lt ts i c hp, parent_some_depth ts i c hp⟩
      · obtain ⟨h1, h2⟩ := ih p c hc
        have h3 := parent_some_lt ts i p hp
        have h4 := parent_some_depth ts i p hp
        exact ⟨by omega, by omega⟩

/-- The ancestor chain is fuel-independent once the fuel exceeds the start
index (parents strictly decrease). -/
theorem ancestor_chain_fuel (ts : List mu_json_token_t) :
    ∀ fuel i, i < fuel →
      ancestor_chain ts fuel (some i) = ancestor_chain ts (i + 1) (some i) := by
  intro fuel
  induction fuel using Nat.strong_induction_on with
  | _ fuel ih =>
    intro i hi
    rcases fuel with _ | f
    · omega
    · rw [ancestor_chain, ancestor_chain]
      rcases hp : mu_json_token_parent ts (some i) with _ | p
      · rfl
      · have hpi : p < i := parent_some_lt ts i p hp
        have e1 : ancestor_chain ts f (some p) =
            ancestor_chain ts (p + 1) (some p) := ih f (by omega) p (by omega)
        have e2 : ancestor_chain ts i (some p) =
            ancestor_chain ts (p + 1) (some p) := ih i (by omega) p hpi
        exact congrArg (fun l => p :: l) (e1.trans e2.symm)

/-! ## Navigation: the parent walk under bookend flags -/

theorem parent_walk_wf_some (ts : List mu_json_token_t) (hwf : wf_store ts)
    (d : Int) :
    ∀ fuel s j, s < ts.length → parent_walk ts d fuel (some s) = some j →
      j ≤ s ∧ mu_json_token_depth ts (some j) < d ∧
      ∀ m, j < m → m ≤ s → mu_json_token_depth ts (some m) ≥ d := by
  intro fuel
  induction fuel with
  | zero =>
    intro s j hs h
    simp [parent_walk] at h
  | succ f ih =>
    intro s j hs h
    rw [parent_walk] at h
    by_cases hd : mu_json_token_depth ts (some s) ≥ d
    · rw [if_pos hd] at h
      rw [prev_wf ts hwf s hs] at h
      by_cases h0 : s = 0
      · rw [if_pos h0] at h
        rw [parent_walk_none] at h
        cases h
      · rw [if_neg h0] at h
        obtain ⟨h1, h2, h3⟩ := ih (s - 1) j (by omega) h
        refine ⟨by omega, h2, ?_⟩
        intro m hm1 hm2
        by_cases hms : m = s
        · subst hms
          exact hd
        · exact h3 m hm1 (by omega)
    · rw [if_neg hd] at h
      injection h with h'
      subst h'
      exact ⟨le_refl _, by omega, fun m hm1 hm2 => absurd hm1 (by omega)⟩

theorem parent_walk_wf_none (ts : List mu_json_token_t) (hwf : wf_store ts)
    (d : Int) :
    ∀ fuel s, s < ts.length → s < fuel →
      parent_walk ts d fuel (some s) = none →
      ∀ m, m ≤ s → mu_json_token_depth ts (some m) ≥ d := by
  intro fuel
  induction fuel with
  | zero =>
    intro s hs hf h
    omega
  | succ f ih =>
    intro s hs hf h
    rw [parent_walk] at h
    by_cases hd : mu_json_token_depth ts (some s) ≥ d
    · rw [if_pos hd] at h
      rw [prev_wf ts hwf s hs] at h
      by_cases h0 : s = 0
      · intro m hm
        have : m = 0 := by omega
        subst this
        exact h0 ▸ hd
      · rw [if_neg h0] at h
        have hrec := ih (s - 1) (by omega) (by omega) h
        intro m hm
        by_cases hms : m = s
        · subst hms
          exact hd
        · exact hrec m (by omega)
    · rw [if_neg hd] at h
      cases h

/-- Characterization of a present parent under the bookend flags: the
nearest preceding record of smaller depth. -/
theorem parent_wf_some (ts : List mu_json_token_t) (hwf : wf_store ts)
    (j p : Nat) (hj : j < ts.length)
    (h : mu_json_token_parent ts (some j) = some p) :
    p < j ∧ mu_json_token_depth ts (some p) < mu_json_token_depth ts (some j) ∧
      ∀ m, p < m → m < j →
        mu_json_token_depth ts (some m) ≥ mu_json_token_depth ts (some j) := by
  unfold mu_json_token_parent at h
  dsimp only at h
  rw [prev_wf ts hwf j hj] at h
  by_cases h0 : j = 0
  · rw [if_pos h0] at h
    rw [parent_walk_none] at h
    cases h
  · rw [if_neg h0] at h
    obtain ⟨h1, h2, h3⟩ :=
      parent_walk_wf_some ts hwf _ (j + 1) (j - 1) p (by omega) h
    exact ⟨by omega, h2, fun m hm1 hm2 => h3 m hm1 (by omega)⟩

/-- Characterization of an absent parent under the bookend flags: no
preceding record has smaller depth. -/
theorem parent_wf_none (ts : List mu_json_token_t) (hwf : wf_store ts)
    (j : Nat) (hj : j < ts.length)
    (h : mu_json_token_parent ts (some j) = none) :
    ∀ m, m < j → mu_json_token_depth ts (some m) ≥
      mu_json_token_depth ts (some j) := by
  unfold mu_json_token_parent at h
  dsimp only at h
  rw [prev_wf ts hwf j hj] at h
  by_cases h0 : j = 0
  · intro m hm
    omega
  · rw [if_neg h0] at h
    have hrec := parent_walk_wf_none ts hwf _ (j + 1) (j - 1) (by omega)
      (by omega) h
    intro m hm
    exact hrec m (by omega)

/-- When the parent of `j` is present, membership in `j`'s ancestor chain
decomposes through it. -/
theorem is_descendant_step (ts : List mu_json_token_t) (c j p : Nat)
    (hp : mu_json_token_parent ts (some j) = some p)
    (hd : is_descendant ts c p ∨ c = p) : is_descendant ts c j := by
  unfold is_descendant
  rw [ancestor_chain]
  rw [hp]
  dsimp only
  rcases hd with hd | hd
  · have hpj : p < j := parent_some_lt ts j p hp
    rw [ancestor_chain_fuel ts j p (by omega)]
    exact List.mem_cons_of_mem p hd
  · subst hd
    exact List.mem_cons_self c _

/-- If every record strictly between `c` and `j` descends from `c` but `j`
does not, then `j` returns to depth at most that of `c`. -/
theorem not_descendant_depth_le (ts : List mu_json_token_t)
    (hwf : wf_store ts) (c j : Nat) (hj : j < ts.length) (hcj : c < j)
    (hnd : ¬ is_descendant ts c j)
    (hall : ∀ m, c < m → m < j → is_descendant ts c m) :
    mu_json_token_depth ts (some j) ≤ mu_json_token_depth ts (some c) := by
  by_contra hlt
  push_neg at hlt
  rcases hp : mu_json_token_parent ts (some j) with _ | p
  · have := parent_wf_none ts hwf j hj hp c hcj
    omega
  · obtain ⟨h1, h2, h3⟩ := parent_wf_some ts hwf j p hj hp
    rcases Nat.lt_trichotomy p c with hpc | hpc | hpc
    · have := h3 c hpc hcj
      omega
    · exact hnd (is_descendant_step ts c j p hp (Or.inr hpc.symm))
    · exact hnd (is_descendant_step ts c j p hp (Or.inl (hall p hpc h1)))

/-! ## Navigation: sibling walks under bookend flags -/

theorem sib_walk_prev_some (ts : List mu_json_token_t) (hwf : wf_store ts)
    (d : Int) :
    ∀ fuel s j, s < ts.length →
      sib_walk ts mu_json_token_prev d fuel (some s) = some j →
      j ≤ s ∧ mu_json_token_depth ts (some j) = d ∧
      ∀ m, j < m → m ≤ s → mu_json_token_depth ts (some m) > d := by
  intro fuel
  induction fuel with
  | zero =>
    intro s j hs h
    simp [sib_walk] at h
  | succ f ih =>
    intro s j hs h
    rw [sib_walk] at h
    by_cases hlt : mu_json_token_depth ts (some s) < d
    · rw [if_pos hlt] at h
      cases h
    · rw [if_neg hlt] at h
      by_cases heq : mu_json_token_depth ts (some s) = d
      · rw [if_pos heq] at h
        injection h with h'
        subst h'
        exact ⟨le_refl _, heq, fun m hm1 hm2 => absurd hm1 (by omega)⟩
      · rw [if_neg heq] at h
        rw [prev_wf ts hwf s hs] at h
        by_cases h0 : s = 0
        · rw [if_pos h0] at h
          rw [sib_walk_none] at h
          cases h
        · rw [if_neg h0] at h
          obtain ⟨h1, h2, h3⟩ := ih (s - 1) j (by omega) h
          refine ⟨by omega, h2, ?_⟩
          intro m hm1 hm2
          by_cases hms : m = s
          · subst hms
            omega
          · exact h3 m hm1 (by omega)

theorem sib_walk_prev_reach (ts : List mu_json_token_t) (hwf : wf_store ts)
    (d : Int) :
    ∀ fuel s j, j ≤ s → s < ts.length →
      mu_json_token_depth ts (some j) = d →
      (∀ m, j < m → m ≤ s → mu_json_token_depth ts (some m) > d) →
      s < fuel → sib_walk ts mu_json_token_prev d fuel (some s) = some j := by
  intro fuel
  induction fuel with
  | zero =>
    intro s j hjs hs hdj hall hfuel
    omega
  | succ f ih =>
    intro s j hjs hs hdj hall hfuel
    rw [sib_walk]
    by_cases hjs' : j = s
    · subst hjs'
      rw [if_neg (by omega), if_pos hdj]
    · have hds := hall s (by omega) (le_refl s)
      rw [if_neg (by omega), if_neg (by omega)]
      rw [prev_wf ts hwf s hs, if_neg (by omega : ¬ s = 0)]
      exact ih (s - 1) j (by omega) (by omega) hdj
        (fun m hm1 hm2 => hall m hm1 (by omega)) (by omega)

theorem sib_walk_next_some (ts : List mu_json_token_t) (hwf : wf_store ts)
    (d : Int) :
    ∀ fuel s j, s < ts.length →
      sib_walk ts mu_json_token_next d fuel (some s) = some j →
      s ≤ j ∧ j < ts.length ∧ mu_json_token_depth ts (some j) = d ∧
      ∀ m, s ≤ m → m < j → mu_json_token_depth ts (some m) > d := by
  intro fuel
  induction fuel with
  | zero =>
    intro s j hs h
    simp [sib_walk] at h
  | succ f ih =>
    intro s j hs h
    rw [sib_walk] at h
    by_cases hlt : mu_json_token_depth ts (some s) < d
    · rw [if_pos hlt] at h
      cases h
    · rw [if_neg hlt] at h
      by_cases heq : mu_json_token_depth ts (some s) = d
      · rw [if_pos heq] at h
        injection h with h'
        subst h'
        exact ⟨le_refl _, hs, heq, fun m hm1 hm2 => absurd hm1 (by omega)⟩
      · rw [if_neg heq] at h
        rw [next_wf ts hwf s hs] at h
        by_cases hlast : s = ts.length - 1
        · rw [if_pos hlast] at h
          rw [sib_walk_none] at h
          cases h
        · rw [if_neg hlast] at h
          obtain ⟨h1, h2, h3, h4⟩ := ih (s + 1) j (by omega) h
          refine ⟨by omega, h2, h3, ?_⟩
          intro m hm1 hm2
          by_cases hms : m = s
          · subst hms
            omega
          · exact h4 m (by omega) hm2

theorem sib_walk_next_reach (ts : List mu_json_token_t) (hwf : wf_store ts)
    (d : Int) :
    ∀ fuel s j, s ≤ j → j < ts.length →
      mu_json_token_depth ts (some j) = d →
      (∀ m, s ≤ m → m < j → mu_json_token_depth ts (some m) > d) →
      j - s < fuel → sib_walk ts mu_json_token_next d fuel (some s) = some j := by
  intro fuel
  induction fuel with
  | zero =>
    intro s j hsj hj hdj hall hfuel
    omega
  | succ f ih =>
    intro s j hsj hj hdj hall hfuel
    rw [sib_walk]
    by_cases hsj' : s = j
    · subst hsj'
      rw [if_neg (by omega), if_pos hdj]
    · have hds := hall s (le_refl s) (by omega)
      rw [if_neg (by omega), if_neg (by omega)]
      rw [next_wf ts hwf s (by omega), if_neg (by omega : ¬ s = ts.length - 1)]
      exact ih (s + 1) j (by omega) hj hdj
        (fun m hm1 hm2 => hall m (by omega) hm2) (by omega)

/-- Sibling duality, backward then forward: a present prev_sibling is undone
by next_sibling. -/
theorem prev_next_sibling (ts : List mu_json_token_t) (hwf : wf_store ts)
    (i s : Nat) (hi : i < ts.length)
    (h : mu_json_token_prev_sibling ts (some i) = some s) :
    mu_json_token_next_sibling ts (some s) = some i := by
  unfold mu_json_token_prev_sibling at h
  dsimp only at h
  rw [prev_wf ts hwf i hi] at h
  by_cases h0 : i = 0
  · rw [if_pos h0] at h
    rw [sib_walk_none] at h
    cases h
  · rw [if_neg h0] at h
    obtain ⟨h1, h2, h3⟩ :=
      sib_walk_prev_some ts hwf _ (i + 1) (i - 1) s (by omega) h
    unfold mu_json_token_next_sibling
    dsimp only
    rw [next_wf ts hwf s (by omega), if_neg (by omega : ¬ s = ts.length - 1)]
    rw [h2]
    exact sib_walk_next_reach ts hwf _ (ts.length + 1) (s + 1) i (by omega) hi
      rfl (fun m hm1 hm2 => h3 m (by omega) (by omega)) (by omega)

/-- Sibling duality, forward then backward: a present next_sibling is undone
by prev_sibling. -/
theorem next_prev_sibling (ts : List mu_json_token_t) (hwf : wf_store ts)
    (i s : Nat) (hi : i < ts.length)
    (h : mu_json_token_next_sibling ts (some i) = some s) :
    mu_json_token_prev_sibling ts (some s) = some i := by
  unfold mu_json_token_next_sibling at h
  dsimp only at h
  rw [next_wf ts hwf i hi] at h
  by_cases hlast : i = ts.length - 1
  · rw [if_pos hlast] at h
    rw [sib_walk_none] at h
    cases h
  · rw [if_neg hlast] at h
    obtain ⟨h1, h2, h3, h4⟩ :=
      sib_walk_next_some ts hwf _ (ts.length + 1) (i + 1) s (by omega) h
    unfold mu_json_token_prev_sibling
    dsimp only
    rw [prev_wf ts hwf s h2, if_neg (by omega : ¬ s = 0)]
    rw [h3]
    exact sib_walk_prev_reach ts hwf _ (s + 1) (s - 1) i (by omega) (by omega)
      rfl (fun m hm1 hm2 => h4 m (by omega) (by omega)) (by omega)

/-- Parent/child duality: a present child is undone by parent. -/
theorem child_parent (ts : List mu_json_token_t) (hwf : wf_store ts)
    (c j : Nat) (hc : c < ts.length)
    (h : mu_json_token_child ts (some c) = some j) :
    mu_json_token_parent ts (some j) = some c := by
  unfold mu_json_token_child at h
  dsimp only at h
  by_cases hgt : mu_json_token_depth ts (mu_json_token_next ts (some c)) >
      mu_json_token_depth ts (some c)
  · rw [if_pos hgt] at h
    rw [next_wf ts hwf c hc] at h hgt
    by_cases hlast : c = ts.length - 1
    · rw [if_pos hlast] at h
      cases h
    · rw [if_neg hlast] at h hgt
      injection h with h'
      subst h'
      unfold mu_json_token_parent
      dsimp only
      rw [prev_wf ts hwf (c + 1) (by omega), if_neg (by omega : ¬ c + 1 = 0)]
      simp only [Nat.add_sub_cancel]
      rw [parent_walk]
      rw [if_neg (by omega :
        ¬ mu_json_token_depth ts (some c) ≥ mu_json_token_depth ts (some (c + 1)))]
  · rw [if_neg hgt] at h
    cases h

/-- A successful return value never exceeds the capacity. -/
theorem parse_success_le (k : Nat) (input : List Nat)
    (h : 0 ≤ (parse k input).1) : (parse k input).1 ≤ (k : Int) := by
  have he3 := parse_loop_error3 input k (input.length + 1) parse_init
  rw [show parse_init.error = 0 from rfl] at he3
  have hok := parse_end_retval_nonneg input.length
    (parse_loop input k (input.length + 1) parse_init) he3 h
  have hle := parse_loop_tokens_le_max input k (input.length + 1) parse_init
    (Nat.zero_le k)
  rw [show (parse k input).1 = (parse_end input.length
    (parse_loop input k (input.length + 1) parse_init)).1 from rfl, hok.2.2.2]
  exact_mod_cast hle

/-! ## The claims -/

set_option maxRecDepth 10000 in
/-- C1: the sealing claim fails on the code.  Parsing `[[[1]]]` succeeds
(return value 4 ≥ 0), yet the ARRAY token at index 1 is emitted with
IS_SEALED unset, and its slice is the bytes `[[1]]]` — one closing bracket
past the textual extent `[[1]]` of its value, a structural delimiter
outside the value itself. -/
theorem C1_sealing_violated :
    0 ≤ (parse 8 nested_input).1 ∧
    token_is_sealed (parse 8 nested_input).2 (some 1) = false ∧
    (mu_json_token_slice (parse 8 nested_input).2 (some 1)).map
      (slice_bytes nested_input) = some [91, 91, 49, 93, 93, 93] := by
  refine ⟨by decide, by decide, by decide⟩

set_option maxRecDepth 10000 in
/-- C2: parsing scenario S1's input with any capacity at least 9 returns
exactly 9 tokens with the expected (kind, depth, slice) sequence. -/
theorem C2_scenario_s1 (k : Nat) (hk : 9 ≤ k) :
    (parse k s1_input).1 = 9 ∧
    token_triples (parse k s1_input) s1_input = s1_expected := by
  have h9 : (parse 9 s1_input).1 = 9 ∧
      token_triples (parse 9 s1_input) s1_input = s1_expected :=
    ⟨by decide, by decide⟩
  rcases parse_maxMono s1_input 9 k hk with h | h
  · rw [h]
    exact h9
  · rw [h9.1] at h
    exact absurd h (by decide)

set_option maxRecDepth 10000 in
/-- Witness for C2 at capacity 9. -/
theorem C2_scenario_s1_witness :
    (parse 9 s1_input).1 = 9 ∧
    token_triples (parse 9 s1_input) s1_input = s1_expected :=
  C2_scenario_s1 9 (by decide)

/-- C3: in a successfully parsed store, every descendant of a container
token sits at a strictly larger index and strictly larger depth, and the
first following record that is not a descendant has depth at most the
container's. -/
theorem C3_preorder (k : Nat) (input : List Nat)
    (hsucc : 0 ≤ (parse k input).1) (c : Nat)
    (_hcont : is_container (parse k input).2 (some c) = true) :
    (∀ d, is_descendant (parse k input).2 c d →
      c < d ∧ dAt (parse k input).2 c < dAt (parse k input).2 d) ∧
    (∀ j, c < j → j < (parse k input).2.length →
      ¬ is_descendant (parse k input).2 c j →
      (∀ m, c < m → m < j → is_descendant (parse k input).2 c m) →
      dAt (parse k input).2 j ≤ dAt (parse k input).2 c) := by
  have hwf := parse_success_wf k input hsucc
  constructor
  · intro d hd
    exact ancestor_chain_mem (parse k input).2 (d + 1) d c hd
  · intro j h1 h2 h3 h4
    exact not_descendant_depth_le (parse k input).2 hwf c j h2 h1 h3 h4

set_option maxRecDepth 10000 in
/-- Witness for C3 on scenario S1: the ARRAY at index 4 has descendant 5,
and index 7 is its first following non-descendant. -/
theorem C3_preorder_witness :
    (4 < 5 ∧ dAt (parse 9 s1_input).2 4 < dAt (parse 9 s1_input).2 5) ∧
    dAt (parse 9 s1_input).2 7 ≤ dAt (parse 9 s1_input).2 4 := by
  have h := C3_preorder 9 s1_input (by decide) 4 (by decide)
  refine ⟨h.1 5 (by decide), h.2 7 (by decide) (by decide) (by decide) ?_⟩
  intro m hm1 hm2
  have hm : m = 5 ∨ m = 6 := by omega
  rcases hm with hm | hm <;> subst hm <;> decide

set_option maxRecDepth 10000 in
/-- C4: the object key/value alternation claim fails on the code.  Parsing
the object text with members `\x7b"a":[1,2],777\x7d` succeeds with 6 tokens;
the token at index 5 is an immediate child of the OBJECT at index 0 whose
1-based child position is 3 (zero-based 2, a key slot), yet it is a NUMBER,
not a STRING. -/
theorem C4_object_keys_violated :
    (parse 8 badkey_input).1 = 6 ∧
    mu_json_token_type (parse 8 badkey_input).2 (some 0) =
      MU_JSON_TOKEN_TYPE_OBJECT ∧
    mu_json_token_parent (parse 8 badkey_input).2 (some 5) = some 0 ∧
    child_count (parse 8 badkey_input).2 (some 0) (some 5) = 3 ∧
    mu_json_token_type (parse 8 badkey_input).2 (some 5) =
      MU_JSON_TOKEN_TYPE_NUMBER := by
  refine ⟨by decide, by decide, by decide, by decide, by decide⟩

/-- C5: when the per-byte loop ends without a mid-parse error, the result
is selected in order: nonzero depth gives INCOMPLETE (-3), then a state
other than OK gives BAD_FORMAT (-1), otherwise the non-negative token
count is returned. -/
theorem C5_endgame (k : Nat) (input : List Nat)
    (he : (parse_loop input k (input.length + 1) parse_init).error = 0) :
    ((parse_loop input k (input.length + 1) parse_init).depth ≠ 0 →
      (parse k input).1 = -3) ∧
    ((parse_loop input k (input.length + 1) parse_init).depth = 0 →
      (parse_loop input k (input.length + 1) parse_init).state ≠ OK →
      (parse k input).1 = -1) ∧
    ((parse_loop input k (input.length + 1) parse_init).depth = 0 →
      (parse_loop input k (input.length + 1) parse_init).state = OK →
      (parse k input).1 =
        ((parse_loop input k (input.length + 1) parse_init).tokens.length
          : Int)) := by
  refine ⟨?_, ?_, ?_⟩
  · intro hd
    show (parse_end input.length
      (parse_loop input k (input.length + 1) parse_init)).1 = -3
    unfold parse_end
    rw [if_neg (by omega), if_pos hd]
  · intro hd hs
    show (parse_end input.length
      (parse_loop input k (input.length + 1) parse_init)).1 = -1
    unfold parse_end
    rw [if_neg (by omega), if_neg (by omega), if_pos hs]
  · intro hd hs
    exact parse_end_success input.length _ he hd hs

set_option maxRecDepth 10000 in
/-- Witness for C5: the unterminated object of scenario S6 returns
INCOMPLETE, the unterminated string at depth 0 returns BAD_FORMAT. -/
theorem C5_endgame_witness :
    (parse 8 s6_input).1 = -3 ∧ (parse 8 unterm_string_input).1 = -1 :=
  ⟨(C5_endgame 8 s6_input (by decide)).1 (by decide),
   (C5_endgame 8 unterm_string_input (by decide)).2.1 (by decide) (by decide)⟩

set_option maxRecDepth 10000 in
/-- C6 as stated is false: parsing `[1 2]` with capacity 1 returns
NO_TOKENS (-2), yet no capacity parses this invalid input successfully, so
no valid parse produces more than 1 token. -/
theorem C6_counterexample :
    ¬ ∀ (input : List Nat) (k : Nat),
      ((parse k input).1 = -2 ↔
        ∃ n : Nat, k < n ∧ ∃ K : Nat, (parse K input).1 = (n : Int)) := by
  intro hcl
  obtain ⟨n, hn, K, hK⟩ := (hcl c6_input 1).mp (by decide)
  have hneg : ∀ K : Nat,
      (parse K c6_input).1 = -1 ∨ (parse K c6_input).1 = -2 := by
    intro K
    rcases Nat.le_total K 5 with hle | hle
    · rcases parse_maxMono c6_input K 5 hle with h5 | h5
      · left
        rw [← h5]
        decide
      · right
        exact h5
    · rcases parse_maxMono c6_input 5 K hle with h5 | h5
      · left
        rw [h5]
        decide
      · exact absurd h5 (by decide)
  rcases hneg K with h | h <;> rw [hK] at h <;> omega

/-- C6 (amended): if some capacity parses the input successfully with n
tokens, then parsing with capacity k returns NO_TOKENS exactly when
k < n. -/
theorem C6_capacity (input : List Nat) (n K : Nat)
    (hK : (parse K input).1 = (n : Int)) (k : Nat) :
    ((parse k input).1 = -2 ↔ k < n) := by
  have h0 : 0 ≤ (parse K input).1 := by
    rw [hK]
    exact Int.natCast_nonneg n
  have hnK : (n : Int) ≤ (K : Int) := by
    rw [← hK]
    exact parse_success_le K input h0
  constructor
  · intro h2
    by_contra hk
    push_neg at hk
    rcases Nat.le_total k K with hle | hle
    · have hsh := parse_shrink input k K hle h0
        (by rw [hK]; exact_mod_cast hk)
      rw [hsh, hK] at h2
      omega
    · rcases parse_maxMono input K k hle with he | he
      · rw [he, hK] at h2
        omega
      · rw [hK] at he
        omega
  · intro hk
    have hkK : k ≤ K := by
      have : (k : Int) < n := by exact_mod_cast hk
      omega
    rcases parse_maxMono input k K hkK with he | he
    · exfalso
      have hsucc : 0 ≤ (parse k input).1 := by
        rw [← he]
        exact h0
      have hle := parse_success_le k input hsucc
      rw [← he, hK] at hle
      have : (k : Int) < n := by exact_mod_cast hk
      omega
    · exact he

set_option maxRecDepth 10000 in
/-- Witness for the amended C6 on scenario S1: capacity 9 succeeds with 9
tokens, so capacity 3 returns NO_TOKENS (scenario S7). -/
theorem C6_capacity_witness :
    (parse 9 s1_input).1 = ((9 : Nat) : Int) ∧
    ((parse 3 s1_input).1 = -2 ↔ 3 < 9) :=
  ⟨by decide, C6_capacity s1_input 9 9 (by decide) 3⟩

/-- C7: in a successfully parsed store, a present prev_sibling is inverted
by next_sibling, a present next_sibling is inverted by prev_sibling, and a
present child is inverted by parent. -/
theorem C7_duality (k : Nat) (input : List Nat)
    (hsucc : 0 ≤ (parse k input).1) (i : Nat)
    (hi : i < (parse k input).2.length) :
    (∀ s, mu_json_token_prev_sibling (parse k input).2 (some i) = some s →
      mu_json_token_next_sibling (parse k input).2 (some s) = some i) ∧
    (∀ s, mu_json_token_next_sibling (parse k input).2 (some i) = some s →
      mu_json_token_prev_sibling (parse k input).2 (some s) = some i) ∧
    (∀ j, mu_json_token_child (parse k input).2 (some i) = some j →
      mu_json_token_parent (parse k input).2 (some j) = some i) := by
  have hwf := parse_success_wf k input hsucc
  exact ⟨fun s hs => prev_next_sibling _ hwf i s hi hs,
    fun s hs => next_prev_sibling _ hwf i s hi hs,
    fun j hj => child_parent _ hwf i j hi hj⟩

set_option maxRecDepth 10000 in
/-- Witness for C7 on scenario S1's store. -/
theorem C7_duality_witness :
    mu_json_token_next_sibling (parse 9 s1_input).2 (some 2) = some 3 ∧
    mu_json_token_prev_sibling (parse 9 s1_input).2 (some 2) = some 1 ∧
    mu_json_token_parent (parse 9 s1_input).2 (some 1) = some 0 := by
  have h3 := C7_duality 9 s1_input (by decide) 3 (by decide)
  have h1 := C7_duality 9 s1_input (by decide) 1 (by decide)
  have h0 := C7_duality 9 s1_input (by decide) 0 (by decide)
  exact ⟨h3.1 2 (by decide), h1.2.1 2 (by decide), h0.2.2 1 (by decide)⟩

/-- C8: every navigation operation is a total function, and each one maps
an absent token pointer to absent. -/
theorem C8_absent (ts : List mu_json_token_t) :
    mu_json_token_prev ts none = none ∧
    mu_json_token_next ts none = none ∧
    mu_json_token_root ts none = none ∧
    mu_json_token_parent ts none = none ∧
    mu_json_token_child ts none = none ∧
    mu_json_token_prev_sibling ts none = none ∧
    mu_json_token_next_sibling ts none = none :=
  ⟨rfl, rfl, rfl, rfl, rfl, rfl, rfl⟩

/-- C9: on an absent token the read-only accessors return the fixed
sentinels: UNKNOWN type, depth -1, false flags, absent slice. -/
theorem C9_null_accessors (ts : List mu_json_token_t) :
    mu_json_token_type ts none = MU_JSON_TOKEN_TYPE_UNKNOWN ∧
    mu_json_token_depth ts none = -1 ∧
    mu_json_token_is_first ts none = false ∧
    mu_json_token_is_last ts none = false ∧
    mu_json_token_slice ts none = none :=
  ⟨rfl, rfl, rfl, rfl, rfl⟩

/-- C10: the parser never returns 0: a successful parse returns at least 1
token, and a whitespace-only (or empty) input returns BAD_FORMAT (-1). -/
theorem C10_nonzero (k : Nat) (input : List Nat) :
    (parse k input).1 ≠ 0 ∧
    (0 ≤ (parse k input).1 → 1 ≤ (parse k input).1) ∧
    ((∀ b ∈ input, b = 32 ∨ b = 9 ∨ b = 10 ∨ b = 13) →
      (parse k input).1 = -1) := by
  have hpos : 0 ≤ (parse k input).1 → 1 ≤ (parse k input).1 := by
    intro h0
    have he3 := parse_loop_error3 input k (input.length + 1) parse_init
    rw [show parse_init.error = 0 from rfl] at he3
    have hok := parse_end_retval_nonneg input.length
      (parse_loop input k (input.length + 1) parse_init) he3 h0
    rw [show (parse k input).1 = (parse_end input.length
      (parse_loop input k (input.length + 1) parse_init)).1 from rfl,
      hok.2.2.2]
    have hne : (parse_loop input k (input.length + 1) parse_init).tokens
        ≠ [] := by
      intro hemp
      have hGO := parse_loop_GO input k (input.length + 1) parse_init
        (fun _ => rfl) hemp
      rw [hok.2.2.1] at hGO
      exact absurd hGO (by decide)
    have hlen := List.length_pos.mpr hne
    exact_mod_cast hlen
  refine ⟨?_, hpos, ?_⟩
  · intro h0
    have h1 := hpos (by omega)
    omega
  · intro hb
    have hq := parse_loop_ws input k hb (input.length + 1) parse_init
      rfl rfl rfl rfl
    show (parse_end input.length
      (parse_loop input k (input.length + 1) parse_init)).1 = -1
    unfold parse_end
    rw [if_neg (by omega : ¬ (parse_loop input k (input.length + 1)
        parse_init).error ≠ 0)]
    rw [if_neg (by omega : ¬ (parse_loop input k (input.length + 1)
        parse_init).depth ≠ 0)]
    rw [if_pos (by rw [hq.1]; decide : (parse_loop input k (input.length + 1)
        parse_init).state ≠ OK)]

set_option maxRecDepth 10000 in
/-- Witness for C10: two spaces return BAD_FORMAT, in particular not 0. -/
theorem C10_nonzero_witness :
    (parse 4 [32, 32]).1 ≠ 0 ∧ (parse 4 [32, 32]).1 = -1 :=
  ⟨(C10_nonzero 4 [32, 32]).1,
   (C10_nonzero 4 [32, 32]).2.2 (by decide)⟩

end MuJson
